import Mathlib

/-!
Shallow embedding of the yfinance-trading-signal core in Lean 4.

Prices, volumes and derived quantities are modelled as rationals (`ℚ`);
timestamps as integers (seconds).  A pandas `DataFrame` of OHLCV rows is
modelled as a `List Candle` in timestamp order; `df.tail(n)` becomes
`List.drop (length - n)`, `df.iloc[-1]` becomes `getLast?` with a default
that is never reached at the call sites proved about.  Python dictionaries
keyed by symbol alias become association lists.  Fallible operations
(exceptions in the source) return `Option`.
-/

namespace TradingSignal

/-- One OHLCV row (`timestamp, open, high, low, close, volume`). -/
structure Candle where
  ts : Int
  open_ : ℚ
  high : ℚ
  low : ℚ
  close : ℚ
  volume : ℚ
deriving DecidableEq, Repr

/-- Default row used for out-of-range indexing defaults; the guarded call
sites proved about never reach it. -/
def dummyCandle : Candle := ⟨0, 0, 0, 0, 0, 0⟩

/-- `max` of a list with a default for the empty case (pandas `.max()` at
the guarded call sites is only applied to non-empty windows). -/
def listMaxD (l : List ℚ) (d : ℚ) : ℚ :=
  match l with
  | [] => d
  | x :: xs => xs.foldl max x

/-- `min` of a list with a default for the empty case. -/
def listMinD (l : List ℚ) (d : ℚ) : ℚ :=
  match l with
  | [] => d
  | x :: xs => xs.foldl min x

lemma le_foldl_max (xs : List ℚ) (a : ℚ) : a ≤ xs.foldl max a := by
  induction xs generalizing a with
  | nil => exact le_rfl
  | cons y ys ih => exact le_trans (le_max_left a y) (ih (max a y))

lemma mem_le_foldl_max (xs : List ℚ) (a x : ℚ) (hx : x ∈ xs) :
    x ≤ xs.foldl max a := by
  induction xs generalizing a with
  | nil => cases hx
  | cons y ys ih =>
    rcases List.mem_cons.mp hx with h | h
    · subst h
      exact le_trans (le_max_right a x) (le_foldl_max ys (max a x))
    · exact ih (max a y) h

lemma mem_le_listMaxD (l : List ℚ) (d x : ℚ) (hx : x ∈ l) :
    x ≤ listMaxD l d := by
  cases l with
  | nil => cases hx
  | cons y ys =>
    rcases List.mem_cons.mp hx with h | h
    · subst h
      exact le_foldl_max ys x
    · exact mem_le_foldl_max ys y x h

lemma foldl_min_le (xs : List ℚ) (a : ℚ) : xs.foldl min a ≤ a := by
  induction xs generalizing a with
  | nil => exact le_rfl
  | cons y ys ih => exact le_trans (ih (min a y)) (min_le_left a y)

lemma foldl_min_le_mem (xs : List ℚ) (a x : ℚ) (hx : x ∈ xs) :
    xs.foldl min a ≤ x := by
  induction xs generalizing a with
  | nil => cases hx
  | cons y ys ih =>
    rcases List.mem_cons.mp hx with h | h
    · subst h
      exact le_trans (foldl_min_le ys (min a x)) (min_le_right a x)
    · exact ih (min a y) h

lemma listMinD_le_mem (l : List ℚ) (d x : ℚ) (hx : x ∈ l) :
    listMinD l d ≤ x := by
  cases l with
  | nil => cases hx
  | cons y ys =>
    rcases List.mem_cons.mp hx with h | h
    · subst h
      exact foldl_min_le ys x
    · exact foldl_min_le_mem ys y x h

lemma listMinD_mem (l : List ℚ) (d : ℚ) (hl : l ≠ []) : listMinD l d ∈ l := by
  cases l with
  | nil => exact absurd rfl hl
  | cons y ys =>
    clear hl
    show ys.foldl min y ∈ y :: ys
    induction ys generalizing y with
    | nil => exact List.mem_singleton.mpr rfl
    | cons z zs ih =>
      rcases List.mem_cons.mp (ih (min y z)) with h | h
      · rcases min_choice y z with hm | hm
        · exact List.mem_cons.mpr (Or.inl (h.trans hm))
        · exact List.mem_cons.mpr (Or.inr (List.mem_cons.mpr (Or.inl (h.trans hm))))
      · exact List.mem_cons.mpr (Or.inr (List.mem_cons.mpr (Or.inr h)))

lemma listMaxD_mem (l : List ℚ) (d : ℚ) (hl : l ≠ []) : listMaxD l d ∈ l := by
  cases l with
  | nil => exact absurd rfl hl
  | cons y ys =>
    clear hl
    show ys.foldl max y ∈ y :: ys
    induction ys generalizing y with
    | nil => exact List.mem_singleton.mpr rfl
    | cons z zs ih =>
      rcases List.mem_cons.mp (ih (max y z)) with h | h
      · rcases max_choice y z with hm | hm
        · exact List.mem_cons.mpr (Or.inl (h.trans hm))
        · exact List.mem_cons.mpr (Or.inr (List.mem_cons.mpr (Or.inl (h.trans hm))))
      · exact List.mem_cons.mpr (Or.inr (List.mem_cons.mpr (Or.inr h)))

/-! ## Indicators (`app/core/strategy/technical_utils.py`) -/

/-- True-range sequence continuing after the first row: each entry is
`max(high - low, |high - prev_close|, |low - prev_close|)`. -/
def trueRangesFrom (prev : Candle) : List Candle → List ℚ
  | [] => []
  | c :: cs =>
      max (c.high - c.low) (max |c.high - prev.close| |c.low - prev.close|) ::
        trueRangesFrom c cs

/-- True ranges of a series; the first row has no previous close (pandas
`close.shift()` yields NaN there, which `max(axis=1)` skips), so its true
range is `high - low`. -/
def trueRanges : List Candle → List ℚ
  | [] => []
  | c :: cs => (c.high - c.low) :: trueRangesFrom c cs

/-- `ewm(span, adjust=False).mean()` recurrence after the seed value:
`y_i = α·x_i + (1-α)·y_{i-1}` with `α = 2/(span+1)`. -/
def emaFrom (alpha prev : ℚ) : List ℚ → List ℚ
  | [] => []
  | x :: xs =>
      let v := alpha * x + (1 - alpha) * prev
      v :: emaFrom alpha v xs

/-- `calculate_atr(df, period)`: EMA (span = `period`, `adjust=False`) of
the true ranges. -/
def calculate_atr (df : List Candle) (period : ℕ) : List ℚ :=
  match trueRanges df with
  | [] => []
  | t :: ts => t :: emaFrom (2 / ((period : ℚ) + 1)) t ts

/-- Last ATR value (`calculate_atr(df, 14).iloc[-1]`); the default `0` is
only reached on the empty series, where the source would raise. -/
def atrLast (df : List Candle) : ℚ :=
  ((calculate_atr df 14).getLast?).getD 0

/-- `identify_swing_points(df, window)`: a high (low) at index `i` is a
swing point when it equals the max (min) of the centred window
`[i-window, i+window]`; returns the two price lists in index order. -/
def identify_swing_points (df : List Candle) (window : ℕ) : List ℚ × List ℚ :=
  if df.length < window * 2 + 1 then ([], [])
  else
    let highs := df.map (·.high)
    let lows := df.map (·.low)
    let idxs := (List.range df.length).filter
      (fun i => decide (window ≤ i) && decide (i + window < df.length))
    let swingHighs := idxs.filterMap (fun i =>
      let slice := (highs.drop (i - window)).take (window * 2 + 1)
      if highs.getD i 0 = listMaxD slice 0 then some (highs.getD i 0) else none)
    let swingLows := idxs.filterMap (fun i =>
      let slice := (lows.drop (i - window)).take (window * 2 + 1)
      if lows.getD i 0 = listMinD slice 0 then some (lows.getD i 0) else none)
    (swingHighs, swingLows)

/-- A BOS event as emitted by `detect_bos` (`type`, `price`, `timestamp`). -/
structure BosEvent where
  etype : String
  price : ℚ
  ts : Int
deriving DecidableEq, Repr

/-- `detect_bos(df, lookback)`: the recent high/low are taken over
`df.tail(lookback)` and compared against the latest candle. -/
def detect_bos (df : List Candle) (lookback : ℕ) : List BosEvent :=
  if df.length < lookback + 5 then []
  else
    let recent := df.drop (df.length - lookback)
    let recent_high := listMaxD (recent.map (·.high)) 0
    let recent_low := listMinD (recent.map (·.low)) 0
    let latest := (df.getLast?).getD dummyCandle
    let latestTs := (df.getLast?).getD dummyCandle |>.ts
    (if recent_high < latest.high then [⟨"bullish_bos", latest.high, latestTs⟩] else []) ++
      (if latest.low < recent_low then [⟨"bearish_bos", latest.low, latestTs⟩] else [])

/-- A CHOCH event as emitted by `detect_choch`. -/
structure ChochEvent where
  etype : String
  ts : Int
deriving DecidableEq, Repr

/-- Count of up bodies (`open < close`) in `df.tail(lookback)`. -/
def chochUps (df : List Candle) (lookback : ℕ) : ℕ :=
  ((df.drop (df.length - lookback)).filter (fun c => decide (c.open_ < c.close))).length

/-- Count of down bodies (`close < open`) in `df.tail(lookback)`. -/
def chochDowns (df : List Candle) (lookback : ℕ) : ℕ :=
  ((df.drop (df.length - lookback)).filter (fun c => decide (c.close < c.open_))).length

/-- `detect_choch(df, lookback)`: compares up/down body counts over the
last `lookback` candles against the last 5. -/
def detect_choch (df : List Candle) (lookback : ℕ) : List ChochEvent :=
  if df.length < lookback + 10 then []
  else
    (if (chochDowns df lookback : ℚ) * (3 / 2) < (chochUps df lookback : ℚ) ∧
        chochUps df 5 < chochDowns df 5 then
      [⟨"bearish_choch", (df.getLast?).getD dummyCandle |>.ts⟩] else []) ++
      (if (chochUps df lookback : ℚ) * (3 / 2) < (chochDowns df lookback : ℚ) ∧
          chochDowns df 5 < chochUps df 5 then
        [⟨"bullish_choch", (df.getLast?).getD dummyCandle |>.ts⟩] else [])

/-- A liquidity-sweep event as emitted by `detect_liquidity_sweep`. -/
structure SweepEvent where
  etype : String
  price : ℚ
  ts : Int
deriving DecidableEq, Repr

/-- `detect_liquidity_sweep(df, lookback)`: the recent high/low window is
`df.tail(lookback)` and the sweep pattern is sought on the last 3 candles. -/
def detect_liquidity_sweep (df : List Candle) (lookback : ℕ) : List SweepEvent :=
  if df.length < lookback + 3 then []
  else
    let recent := df.drop (df.length - lookback)
    let recent_high := listMaxD (recent.map (·.high)) 0
    let recent_low := listMinD (recent.map (·.low)) 0
    let last3 := df.drop (df.length - 3)
    let c0 := (last3.headD dummyCandle)
    let clast := (last3.getLast?).getD dummyCandle
    let latestTs := (df.getLast?).getD dummyCandle |>.ts
    (if c0.low < recent_low ∧ c0.open_ < clast.close then
        [⟨"bullish_sweep", c0.low, latestTs⟩] else []) ++
      (if recent_high < c0.high ∧ clast.close < c0.open_ then
        [⟨"bearish_sweep", c0.high, latestTs⟩] else [])

/-- An FVG as emitted by `IFvgDetector.detect_fvgs`. -/
structure Fvg where
  start_idx : ℕ
  end_idx : ℕ
  gap_high : ℚ
  gap_low : ℚ
  direction : String
  ts : Int
deriving DecidableEq, Repr

/-- `IFvgDetector.detect_fvgs(df, lookback)`: three-candle gaps over the
last `lookback` candles; fewer than 3 candles yields no FVGs. -/
def detect_fvgs (df : List Candle) (lookback : ℕ) : List Fvg :=
  if df.length < 3 then []
  else
    let recent := if lookback < df.length then df.drop (df.length - lookback) else df
    let idxs := List.range' 1 (recent.length - 2)
    idxs.filterMap (fun i =>
      let prev := recent.getD (i - 1) dummyCandle
      let next := recent.getD (i + 1) dummyCandle
      if prev.high < next.low then
        some ⟨i - 1, i + 1, next.low, prev.high, "bullish", (recent.getD i dummyCandle).ts⟩
      else if next.high < prev.low then
        some ⟨i - 1, i + 1, prev.low, next.high, "bearish", (recent.getD i dummyCandle).ts⟩
      else none)

/-- An order block as emitted by `IOrderBlockDetector.detect_order_blocks`. -/
structure OrderBlock where
  start_idx : ℕ
  end_idx : ℕ
  ob_high : ℚ
  ob_low : ℚ
  direction : String
  ts : Int
deriving DecidableEq, Repr

/-- `IOrderBlockDetector.detect_order_blocks(df, lookback, threshold)`:
a body candle followed two candles later by a move of relative size
`> threshold`; fewer than 5 candles yields no order blocks. -/
def detect_order_blocks (df : List Candle) (lookback : ℕ) (threshold : ℚ) :
    List OrderBlock :=
  if df.length < 5 then []
  else
    let recent := if lookback < df.length then df.drop (df.length - lookback) else df
    let idxs := List.range' 2 (recent.length - 4)
    idxs.filterMap (fun i =>
      let curr := recent.getD i dummyCandle
      let next2 := recent.getD (i + 2) dummyCandle
      let move_size := |next2.close - curr.close| / curr.close
      if curr.close < curr.open_ ∧ curr.close < next2.close ∧ threshold < move_size then
        some ⟨i, i, curr.high, curr.low, "bullish", curr.ts⟩
      else if curr.open_ < curr.close ∧ next2.close < curr.close ∧ threshold < move_size then
        some ⟨i, i, curr.high, curr.low, "bearish", curr.ts⟩
      else none)

/-! ## MAE/MFE aggregate (`app/db/queries.py`) -/

/-- Trade lifecycle states (`TradeState`), enum member names
`OPEN, CLOSED_BY_TP, CLOSED_BY_SL, CLOSED_MANUAL, EXPIRED`. -/
inductive TradeState where
  | Open
  | ClosedByTp
  | ClosedBySl
  | ClosedManual
  | Expired
deriving DecidableEq, Repr, BEq

/-- A row of the `trades` table. -/
structure Trade where
  id : ℕ
  signal_id : ℕ
  symbol_alias : String
  yf_symbol : String
  direction : String
  planned_entry_price : ℚ
  actual_entry_price : ℚ
  stop_loss : ℚ
  take_profit : ℚ
  state : TradeState
  open_time_utc : Int
  close_time_utc : Option Int
  close_price : Option ℚ
  close_reason : Option String
deriving DecidableEq, Repr

/-- `statistics.median`: middle element of the sorted list, or the mean of
the two middle elements; call sites guard non-emptiness. -/
def medianQ (l : List ℚ) : ℚ :=
  let s := List.insertionSort (· ≤ ·) l
  let n := s.length
  if n % 2 = 1 then s.getD (n / 2) 0
  else (s.getD (n / 2 - 1) 0 + s.getD (n / 2) 0) / 2

/-- `statistics.mean`. -/
def meanQ (l : List ℚ) : ℚ := l.sum / (l.length : ℚ)

/-- Result dictionary of `get_mae_mfe_stats`. -/
structure MaeMfeStats where
  median_mae : Option ℚ
  median_mfe : Option ℚ
  avg_mae : Option ℚ
  avg_mfe : Option ℚ
  count : ℕ
deriving DecidableEq, Repr

/-- Loop body of `get_mae_mfe_stats`: a trade contributes
`pnl = close - entry` (buy) or `entry - close` (sell) when both prices are
truthy (present and non-zero); negative pnl is appended (in absolute
value) to the MAE list, otherwise to the MFE list. -/
def maeMfeStep (direction : String) (acc : List ℚ × List ℚ) (t : Trade) :
    List ℚ × List ℚ :=
  match t.close_price with
  | some cp =>
      if cp ≠ 0 ∧ t.actual_entry_price ≠ 0 then
        let pnl := if direction = "buy" then cp - t.actual_entry_price
                   else t.actual_entry_price - cp
        if pnl < 0 then (acc.1 ++ [|pnl|], acc.2) else (acc.1, acc.2 ++ [pnl])
      else acc
  | none => acc

/-- `get_mae_mfe_stats` applied to the list of closed trades returned by
`get_closed_trades(db, alias, direction, limit)`. -/
def get_mae_mfe_stats (closed_trades : List Trade) (direction : String) :
    MaeMfeStats :=
  if closed_trades = [] then ⟨none, none, none, none, 0⟩
  else
    let p := closed_trades.foldl (maeMfeStep direction) ([], [])
    ⟨if p.1 ≠ [] then some (medianQ p.1) else none,
     if p.2 ≠ [] then some (medianQ p.2) else none,
     if p.1 ≠ [] then some (meanQ p.1) else none,
     if p.2 ≠ [] then some (meanQ p.2) else none,
     closed_trades.length⟩

/-- `get_closed_trades(db, alias, direction, limit)`: non-Open trades for
the alias and direction, ordered by close time descending, truncated to
`limit` when truthy (non-zero). -/
def get_closed_trades (trades : List Trade) (symbol_alias direction : String)
    (limit : ℕ) : List Trade :=
  let filtered := trades.filter (fun t =>
    decide (t.state ≠ TradeState.Open) && decide (t.symbol_alias = symbol_alias) &&
      decide (t.direction = direction))
  let ordered := List.insertionSort
    (fun a b => (b.close_time_utc.getD 0) ≤ (a.close_time_utc.getD 0)) filtered
  if limit ≠ 0 then ordered.take limit else ordered

/-- Claim-side reading of the MAE/MFE aggregate: pnls of the usable
closed trades. -/
def pnlsSpec (closed : List Trade) (direction : String) : List ℚ :=
  closed.filterMap (fun t =>
    match t.close_price with
    | some cp =>
        if cp ≠ 0 ∧ t.actual_entry_price ≠ 0 then
          some (if direction = "buy" then cp - t.actual_entry_price
                else t.actual_entry_price - cp)
        else none
    | none => none)

/-- Claim-side reading, literal: MAE is the strictly negative pnls in
absolute value, MFE is the strictly positive pnls; medians and means of
each with the sample count. -/
def maesClaim (closed : List Trade) (direction : String) : List ℚ :=
  ((pnlsSpec closed direction).filter (fun x => decide (x < 0))).map (fun x => |x|)

/-- Claim-side MFE partition, literal: the strictly positive pnls. -/
def mfesClaim (closed : List Trade) (direction : String) : List ℚ :=
  (pnlsSpec closed direction).filter (fun x => decide (0 < x))

def maeMfeStatsClaim (closed : List Trade) (direction : String) : MaeMfeStats :=
  if closed = [] then ⟨none, none, none, none, 0⟩
  else
    ⟨if maesClaim closed direction ≠ [] then some (medianQ (maesClaim closed direction)) else none,
     if mfesClaim closed direction ≠ [] then some (medianQ (mfesClaim closed direction)) else none,
     if maesClaim closed direction ≠ [] then some (meanQ (maesClaim closed direction)) else none,
     if mfesClaim closed direction ≠ [] then some (meanQ (mfesClaim closed direction)) else none,
     closed.length⟩

/-! ## SL/TP estimator (`app/core/sl_tp/sl_tp_estimator.py`) -/

/-- `SignalContext`. -/
structure SignalContext where
  symbol_alias : String
  yf_symbol : String
  direction : String
  entry_price : ℚ
  h4_df : List Candle
  h1_df : List Candle
  recent_swing_highs : List ℚ
  recent_swing_lows : List ℚ
deriving DecidableEq, Repr

/-- `OpenTradeAnalytics`; `open_duration` is in seconds. -/
structure OpenTradeAnalytics where
  trade_id : ℕ
  symbol_alias : String
  direction : String
  entry_price : ℚ
  current_price : ℚ
  current_sl : ℚ
  current_tp : ℚ
  open_duration : Int
  current_rr : ℚ
  h4_df : List Candle
  h1_df : List Candle
deriving DecidableEq, Repr

/-- `SlTpAdjustment`. -/
structure SlTpAdjustment where
  action : String
  new_sl : Option ℚ
  new_tp : Option ℚ
  reason : String
deriving DecidableEq, Repr

/-- `estimate_for_new_signal` local `avg_atr`: the averaged last ATR(14)
values of the H4 and H1 series (`.iloc[-1]` on each). -/
def avg_atr_of (ctx : SignalContext) : ℚ :=
  (atrLast ctx.h4_df + atrLast ctx.h1_df) / 2

/-- `estimate_for_new_signal` local `nearest_swing` for a buy: the lowest
swing low strictly below the entry, with fallback `entry * 0.98` both
when the swing list is empty and when no swing is below the entry. -/
def nearest_low_of (ctx : SignalContext) : ℚ :=
  if ctx.recent_swing_lows ≠ [] then
    listMinD (ctx.recent_swing_lows.filter (fun s => decide (s < ctx.entry_price)))
      (ctx.entry_price * (98 / 100))
  else ctx.entry_price * (98 / 100)

/-- `estimate_for_new_signal` local `nearest_swing` for a sell: the
highest swing high strictly above the entry, fallback `entry * 1.02`. -/
def nearest_high_of (ctx : SignalContext) : ℚ :=
  if ctx.recent_swing_highs ≠ [] then
    listMaxD (ctx.recent_swing_highs.filter (fun s => decide (ctx.entry_price < s)))
      (ctx.entry_price * (102 / 100))
  else ctx.entry_price * (102 / 100)

/-- The buy-side TP: `entry + median_mfe` when that statistic is truthy
(present and non-zero, per `if mae_mfe_stats['median_mfe']:`), else
`entry + avg_atr * 2.5`. -/
def buy_tp_of (stats : MaeMfeStats) (ctx : SignalContext) : ℚ :=
  match stats.median_mfe with
  | some m => if m ≠ 0 then ctx.entry_price + m
              else ctx.entry_price + avg_atr_of ctx * (5 / 2)
  | none => ctx.entry_price + avg_atr_of ctx * (5 / 2)

/-- The sell-side TP: mirror of `buy_tp_of`. -/
def sell_tp_of (stats : MaeMfeStats) (ctx : SignalContext) : ℚ :=
  match stats.median_mfe with
  | some m => if m ≠ 0 then ctx.entry_price - m
              else ctx.entry_price - avg_atr_of ctx * (5 / 2)
  | none => ctx.entry_price - avg_atr_of ctx * (5 / 2)

/-- `DynamicSlTpEstimator.estimate_for_new_signal`; the database lookup
`get_mae_mfe_stats(db, alias, direction, 100)` is passed in as `stats`.
For a buy: `sl = nearest_low - avg_atr * 1.5`; for a sell (any other
direction string): `sl = nearest_high + avg_atr * 1.5`. -/
def estimate_for_new_signal (stats : MaeMfeStats) (ctx : SignalContext) :
    ℚ × ℚ :=
  if ctx.direction = "buy" then
    (nearest_low_of ctx - avg_atr_of ctx * (3 / 2), buy_tp_of stats ctx)
  else
    (nearest_high_of ctx + avg_atr_of ctx * (3 / 2), sell_tp_of stats ctx)

/-- `evaluate_adjustment` local `sl_distance = abs(entry - current_sl)`. -/
def sl_distance_of (ctx : OpenTradeAnalytics) : ℚ :=
  |ctx.entry_price - ctx.current_sl|

/-- `evaluate_adjustment` local `profit_in_r`: current profit over SL
distance when the latter is positive, else 0. -/
def profit_in_r_of (ctx : OpenTradeAnalytics) : ℚ :=
  if 0 < sl_distance_of ctx then
    |ctx.current_price - ctx.entry_price| / sl_distance_of ctx
  else 0

/-- The breakeven branch of `evaluate_adjustment` (`profit_in_r > 1.0`
with the SL still on the entry's adverse side). -/
def breakeven_adjustment (ctx : OpenTradeAnalytics) : Option SlTpAdjustment :=
  if 1 < profit_in_r_of ctx then
    if ctx.direction = "buy" ∧ ctx.current_sl < ctx.entry_price then
      some ⟨"move_sl", some ctx.entry_price, none, "Move SL to breakeven (1R profit)"⟩
    else if ctx.direction = "sell" ∧ ctx.entry_price < ctx.current_sl then
      some ⟨"move_sl", some ctx.entry_price, none, "Move SL to breakeven (1R profit)"⟩
    else none
  else none

/-- The trailing branch of `evaluate_adjustment` (`profit_in_r > 2.0`,
trail one H4 ATR behind the current price, only when it improves the SL). -/
def trail_adjustment (ctx : OpenTradeAnalytics) : Option SlTpAdjustment :=
  if 2 < profit_in_r_of ctx then
    if ctx.direction = "buy" then
      if ctx.current_sl < ctx.current_price - atrLast ctx.h4_df * 1 then
        some ⟨"move_sl", some (ctx.current_price - atrLast ctx.h4_df * 1), none,
          "Trail SL (2R profit)"⟩
      else none
    else
      if ctx.current_price + atrLast ctx.h4_df * 1 < ctx.current_sl then
        some ⟨"move_sl", some (ctx.current_price + atrLast ctx.h4_df * 1), none,
          "Trail SL (2R profit)"⟩
      else none
  else none

/-- `DynamicSlTpEstimator.evaluate_adjustment`: breakeven shift above 1R,
ATR trail above 2R, time-stop past 7 days (604800 seconds). -/
def evaluate_adjustment (ctx : OpenTradeAnalytics) : Option SlTpAdjustment :=
  match breakeven_adjustment ctx with
  | some a => some a
  | none =>
    match trail_adjustment ctx with
    | some a => some a
    | none =>
      if (604800 : Int) < ctx.open_duration then
        some ⟨"close_early", none, none, "Trade open > 7 days"⟩
      else none

/-! ## Strategy engine (`app/core/strategy/h4_fvg_strategy.py`) -/

/-- `MultiTimeframeContext`. -/
structure MultiTimeframeContext where
  alias_ : String
  yf_symbol : String
  now_utc : Int
  h4 : List Candle
  h1 : List Candle
  m30 : List Candle
  m15 : List Candle
  m5 : List Candle
  m1 : List Candle
  current_price : ℚ
deriving DecidableEq, Repr

/-- A persisted `Signal` record as constructed by `_generate_signal`. -/
structure Signal where
  symbol_alias : String
  yf_symbol : String
  direction : String
  time_generated_utc : Int
  entry_price_at_signal : ℚ
  initial_sl : ℚ
  initial_tp : ℚ
  strategy_name : String
  notes : String
  estimated_rr : ℚ
deriving DecidableEq, Repr

/-- `TradeContext` (note: it carries no open-time or age information). -/
structure TradeContext where
  trade_id : ℕ
  symbol_alias : String
  yf_symbol : String
  direction : String
  entry_price : ℚ
  current_price : ℚ
  current_sl : ℚ
  current_tp : ℚ
  candle_high : ℚ
  candle_low : ℚ
  mtf_context : MultiTimeframeContext
deriving DecidableEq, Repr

/-- `TradeUpdateAction`. -/
structure TradeUpdateAction where
  action_type : String
  new_state : Option String
  new_sl : Option ℚ
  new_tp : Option ℚ
  close_reason : Option String
  close_price : Option ℚ
deriving DecidableEq, Repr

/-- The strategy's mutable per-symbol `last_h4_timestamp` dictionary,
modelled as an association list. -/
def lookupTs (m : List (String × Int)) (k : String) : Option Int :=
  (m.find? (fun p => p.1 == k)).map (·.2)

/-- Dictionary update `last_h4_timestamp[alias] = ts`. -/
def insertTs (m : List (String × Int)) (k : String) (v : Int) :
    List (String × Int) :=
  (k, v) :: m.filter (fun p => !(p.1 == k))

/-- `_has_h4_candle_closed`: updates the per-alias timestamp and reports
whether it advanced (a first observation counts as advancement); an empty
H4 series returns early without updating. -/
def has_h4_candle_closed (state : List (String × Int))
    (ctx : MultiTimeframeContext) : List (String × Int) × Bool :=
  if ctx.h4 = [] then (state, false)
  else
    (insertTs state ctx.alias_ ((ctx.h4.getLast?).getD dummyCandle).ts,
      match lookupTs state ctx.alias_ with
      | none => true
      | some l => decide (l < ((ctx.h4.getLast?).getD dummyCandle).ts))

/-- `_determine_bias`: counts directions over the last 3 FVGs and last 3
order blocks (non-bullish counts as bearish) and requires a 2:1 majority. -/
def determine_bias (fvgs : List Fvg) (obs : List OrderBlock) : Option String :=
  let lastFvgs := fvgs.drop (fvgs.length - 3)
  let lastObs := obs.drop (obs.length - 3)
  let bullish_count := (lastFvgs.filter (fun f => f.direction == "bullish")).length +
    (lastObs.filter (fun o => o.direction == "bullish")).length
  let bearish_count := (lastFvgs.filter (fun f => !(f.direction == "bullish"))).length +
    (lastObs.filter (fun o => !(o.direction == "bullish"))).length
  if bearish_count * 2 < bullish_count then some "buy"
  else if bullish_count * 2 < bearish_count then some "sell"
  else none

/-- `_check_structure_confirmation`: H1 BOS/CHOCH or M15 sweep matching
the bias. -/
def check_structure_confirmation (ctx : MultiTimeframeContext) (bias : String) :
    Bool :=
  if bias = "buy" then
    (detect_bos ctx.h1 20).any (fun b => b.etype == "bullish_bos") ||
      (detect_choch ctx.h1 20).any (fun c => c.etype == "bullish_choch") ||
      (detect_liquidity_sweep ctx.m15 20).any (fun s => s.etype == "bullish_sweep")
  else
    (detect_bos ctx.h1 20).any (fun b => b.etype == "bearish_bos") ||
      (detect_choch ctx.h1 20).any (fun c => c.etype == "bearish_choch") ||
      (detect_liquidity_sweep ctx.m15 20).any (fun s => s.etype == "bearish_sweep")

/-- The per-candle wick-rejection test of `_check_entry_confirmation`:
for a buy, a lower wick longer than twice the body on an up candle;
mirrored for a sell. -/
def wick_rejection (bias : String) (c : Candle) : Bool :=
  if bias = "buy" then
    decide (|c.close - c.open_| * 2 < min c.open_ c.close - c.low) &&
      decide (c.open_ < c.close)
  else
    decide (|c.close - c.open_| * 2 < c.high - max c.open_ c.close) &&
      decide (c.close < c.open_)

/-- The 5-candle close trend `m5['close'].iloc[-1] > m5['close'].iloc[-5]`
(clamped index, see `check_entry_confirmation`). -/
def recent_trend_up (ctx : MultiTimeframeContext) : Bool :=
  decide ((ctx.m5.getD (ctx.m5.length - 5) dummyCandle).close <
    ((ctx.m5.getLast?).getD dummyCandle).close)

/-- `_check_entry_confirmation`: a wick rejection on one of the last 3 M5
candles, else the 5-candle close trend.  `m5['close'].iloc[-5]` is
modelled with a clamped index (the source would raise, and its caller
would turn that into no signal, only when `len(m5)` is 3 or 4). -/
def check_entry_confirmation (ctx : MultiTimeframeContext) (bias : String) :
    Bool :=
  if ctx.m5.length < 3 then false
  else
    if (ctx.m5.drop (ctx.m5.length - 3)).any (wick_rejection bias) then true
    else
      if bias = "buy" && recent_trend_up ctx then true
      else if bias = "sell" && !(recent_trend_up ctx) then true
      else false

/-- `_generate_signal`: swing points on H4, SL/TP from the estimator, and
the estimated risk/reward ratio. -/
def generate_signal (stats : MaeMfeStats) (ctx : MultiTimeframeContext)
    (bias : String) : Signal :=
  let sw := identify_swing_points ctx.h4 5
  let sctx : SignalContext :=
    ⟨ctx.alias_, ctx.yf_symbol, bias, ctx.current_price, ctx.h4, ctx.h1, sw.1, sw.2⟩
  let sltp := estimate_for_new_signal stats sctx
  let sl_distance := |ctx.current_price - sltp.1|
  let tp_distance := |sltp.2 - ctx.current_price|
  let estimated_rr := if 0 < sl_distance then tp_distance / sl_distance else 0
  ⟨ctx.alias_, ctx.yf_symbol, bias, ctx.now_utc, ctx.current_price, sltp.1, sltp.2,
    "H4 FVG / OB + structure", "H4 bias: " ++ bias ++ ", multi-timeframe confirmation",
    estimated_rr⟩

/-- `H4FvgStrategy.evaluate_new_signal`: H4-close gate, bias, structure
confirmation, entry confirmation, then signal construction.  Returns the
updated `last_h4_timestamp` dictionary together with the verdict; the
database argument of the estimator is passed in as `stats`. -/
def evaluate_new_signal (state : List (String × Int)) (stats : MaeMfeStats)
    (ctx : MultiTimeframeContext) : List (String × Int) × Option Signal :=
  if !(has_h4_candle_closed state ctx).2 then ((has_h4_candle_closed state ctx).1, none)
  else
    if detect_fvgs ctx.h4 20 = [] ∧ detect_order_blocks ctx.h4 20 (2 / 100) = [] then
      ((has_h4_candle_closed state ctx).1, none)
    else
      match determine_bias (detect_fvgs ctx.h4 20) (detect_order_blocks ctx.h4 20 (2 / 100)) with
      | none => ((has_h4_candle_closed state ctx).1, none)
      | some bias =>
        if !check_structure_confirmation ctx bias then ((has_h4_candle_closed state ctx).1, none)
        else if !check_entry_confirmation ctx bias then ((has_h4_candle_closed state ctx).1, none)
        else ((has_h4_candle_closed state ctx).1, some (generate_signal stats ctx bias))

/-- The `OpenTradeAnalytics` built inside `evaluate_open_trade`, with the
hard-coded `open_duration = timedelta(hours=1)` (3600 seconds) and
`current_rr = 0` marked "Simplified" in the source. -/
def open_trade_analytics_of (ctx : TradeContext) : OpenTradeAnalytics :=
  ⟨ctx.trade_id, ctx.symbol_alias, ctx.direction, ctx.entry_price,
    ctx.current_price, ctx.current_sl, ctx.current_tp, 3600, 0,
    ctx.mtf_context.h4, ctx.mtf_context.h1⟩

/-- `H4FvgStrategy.evaluate_open_trade`: SL crossing first, then TP, then
the estimator's adjustment with a hard-coded `open_duration` of one hour
(3600 seconds) and `current_rr = 0`; a `close_early` adjustment is
translated to `close_manual`, other adjustments to `update_sl_tp`. -/
def evaluate_open_trade (ctx : TradeContext) : Option TradeUpdateAction :=
  if ctx.direction = "buy" ∧ ctx.candle_low ≤ ctx.current_sl then
    some ⟨"close_by_sl", some "ClosedBySl", none, none, some "Stop loss hit",
      some ctx.current_sl⟩
  else if ctx.direction = "sell" ∧ ctx.current_sl ≤ ctx.candle_high then
    some ⟨"close_by_sl", some "ClosedBySl", none, none, some "Stop loss hit",
      some ctx.current_sl⟩
  else if ctx.direction = "buy" ∧ ctx.current_tp ≤ ctx.candle_high then
    some ⟨"close_by_tp", some "ClosedByTp", none, none, some "Take profit hit",
      some ctx.current_tp⟩
  else if ctx.direction = "sell" ∧ ctx.candle_low ≤ ctx.current_tp then
    some ⟨"close_by_tp", some "ClosedByTp", none, none, some "Take profit hit",
      some ctx.current_tp⟩
  else
    match evaluate_adjustment (open_trade_analytics_of ctx) with
    | some adjustment =>
        some ⟨if adjustment.action ≠ "close_early" then "update_sl_tp" else "close_manual",
          if adjustment.action = "close_early" then some "ClosedManual" else none,
          adjustment.new_sl, adjustment.new_tp,
          if adjustment.action = "close_early" then some adjustment.reason else none,
          none⟩
    | none => none

/-! ## Trade state machine (`app/core/state_machine/trade_state_machine.py`) -/

/-- `_closed_trades` set insertion. -/
def insertClosed (id : ℕ) (closed : List ℕ) : List ℕ :=
  if id ∈ closed then closed else id :: closed

/-- `TradeStateMachine.check_and_update_trade`: a non-Open trade is added
to the closed set and produces no action; an Open trade is checked for an
SL crossing first and a TP crossing second, without being mutated. -/
def check_and_update_trade (closed : List ℕ) (trade : Trade)
    (current_price candle_high candle_low : ℚ) :
    List ℕ × Option TradeUpdateAction :=
  if trade.state ≠ TradeState.Open then (insertClosed trade.id closed, none)
  else
    (closed,
      if trade.direction = "buy" then
        if candle_low ≤ trade.stop_loss then
          some ⟨"close_by_sl", some "ClosedBySl", none, none, some "Stop loss hit",
            some trade.stop_loss⟩
        else if trade.take_profit ≤ candle_high then
          some ⟨"close_by_tp", some "ClosedByTp", none, none, some "Take profit hit",
            some trade.take_profit⟩
        else none
      else
        if trade.stop_loss ≤ candle_high then
          some ⟨"close_by_sl", some "ClosedBySl", none, none, some "Stop loss hit",
            some trade.stop_loss⟩
        else if candle_low ≤ trade.take_profit then
          some ⟨"close_by_tp", some "ClosedByTp", none, none, some "Take profit hit",
            some trade.take_profit⟩
        else none)

/-- Python `str.replace`: replace non-overlapping occurrences of `pat`
left to right.  The fuel argument (instantiated with the input length)
only serves structural termination; each step consumes at least one
character. -/
def replaceLoop (pat rep : List Char) : ℕ → List Char → List Char
  | _, [] => []
  | 0, l => l
  | fuel + 1, c :: rest =>
      if pat.isPrefixOf (c :: rest) ∧ pat ≠ [] then
        rep ++ replaceLoop pat rep fuel (List.drop (pat.length - 1) rest)
      else c :: replaceLoop pat rep fuel rest

/-- The name transformation `new_state.upper().replace("CLOSED", "CLOSED_")`
performed by `apply_action` before the enum lookup (Python `str.upper`
maps `Char.toUpper` over the characters). -/
def stateNameXform (s : String) : String :=
  ⟨replaceLoop "CLOSED".data "CLOSED_".data s.data.length (s.data.map Char.toUpper)⟩

/-- Enum lookup `TradeState[name]` by member name; any other name raises
`KeyError` (modelled as `none`). -/
def parseStateName (s : String) : Option TradeState :=
  if s = "OPEN" then some TradeState.Open
  else if s = "CLOSED_BY_TP" then some TradeState.ClosedByTp
  else if s = "CLOSED_BY_SL" then some TradeState.ClosedBySl
  else if s = "CLOSED_MANUAL" then some TradeState.ClosedManual
  else if s = "EXPIRED" then some TradeState.Expired
  else none

/-- `update_trade_state`: sets the state and conditionally the close
fields (`close_time_utc` is always a truthy datetime here; `close_price`
is set when not `None`; `close_reason` when truthy, i.e. non-empty). -/
def update_trade_state (t : Trade) (new_state : TradeState)
    (close_time_utc : Int) (close_price : Option ℚ)
    (close_reason : Option String) : Trade :=
  let t1 := { t with state := new_state, close_time_utc := some close_time_utc }
  let t2 := match close_price with
            | some cp => { t1 with close_price := some cp }
            | none => t1
  match close_reason with
  | some r => if r ≠ "" then { t2 with close_reason := some r } else t2
  | none => t2

/-- `update_trade_sl_tp`: updates SL and/or TP only when provided. -/
def update_trade_sl_tp (t : Trade) (new_sl new_tp : Option ℚ) : Trade :=
  let t1 := match new_sl with
            | some s => { t with stop_loss := s }
            | none => t
  match new_tp with
  | some p => { t1 with take_profit := p }
  | none => t1

/-- `TradeStateMachine.apply_action` on the single tracked trade.  On a
close action the state name goes through `stateNameXform`; an unknown
resulting name raises `KeyError` before anything is mutated (note that
this happens for `"ClosedByTp"` and `"ClosedBySl"`, which map to the
non-member names `CLOSED_BYTP` / `CLOSED_BYSL`), a missing `new_state`
raises `AttributeError`; on success the trade is updated and its id added
to the closed set.  An unknown action type raises `ValueError`.  A raise
leaves both the trade and the closed set unchanged. -/
def apply_action (closed : List ℕ) (t : Trade) (action : TradeUpdateAction)
    (now : Int) : List ℕ × Trade :=
  if action.action_type = "close_by_tp" ∨ action.action_type = "close_by_sl" ∨
      action.action_type = "close_manual" then
    match action.new_state with
    | none => (closed, t)
    | some ns =>
        match parseStateName (stateNameXform ns) with
        | none => (closed, t)
        | some st =>
            (insertClosed t.id closed,
              update_trade_state t st now action.close_price action.close_reason)
  else if action.action_type = "update_sl_tp" then
    (closed, update_trade_sl_tp t action.new_sl action.new_tp)
  else (closed, t)

/-- `TradeStateMachine.is_trade_closed`. -/
def is_trade_closed (closed : List ℕ) (trade_id : ℕ) : Bool :=
  closed.contains trade_id

/-- `TradeStateMachine.should_send_tp_notification`: true only when the
new state is `ClosedByTp` and the trade was not previously closed. -/
def should_send_tp_notification (closed : List ℕ) (trade_id : ℕ)
    (new_state : String) : Bool :=
  new_state == "ClosedByTp" && !(closed.contains trade_id)

/-- One interaction with the state machine on the tracked trade: either a
`check_and_update_trade` observation or an `apply_action` transition. -/
inductive SmStep where
  | check (current_price candle_high candle_low : ℚ)
  | applyA (action : TradeUpdateAction) (now : Int)
deriving DecidableEq, Repr

/-- State-machine state: the `_closed_trades` set and the tracked trade's
database row. -/
structure SmState where
  closed : List ℕ
  trade : Trade
deriving DecidableEq, Repr

/-- Run one step.  A `check` may only grow the closed set; an `applyA`
performs `apply_action`. -/
def runSmStep (s : SmState) (st : SmStep) : SmState :=
  match st with
  | .check p h l => ⟨(check_and_update_trade s.closed s.trade p h l).1, s.trade⟩
  | .applyA a now =>
      ⟨(apply_action s.closed s.trade a now).1, (apply_action s.closed s.trade a now).2⟩

/-- Run a sequence of steps. -/
def runSm (s : SmState) (steps : List SmStep) : SmState :=
  steps.foldl runSmStep s

/-- A close action the system can produce never names a state that parses
back to `Open` (the actions built by `check_and_update_trade`,
`evaluate_open_trade` and the strategy all carry
`ClosedBySl`/`ClosedByTp`/`ClosedManual`). -/
def wfAction (a : TradeUpdateAction) : Bool :=
  match a.new_state with
  | none => true
  | some s => !(parseStateName (stateNameXform s) == some TradeState.Open)

/-- Well-formedness of a step: `check` steps are always well-formed. -/
def wfStep (st : SmStep) : Bool :=
  match st with
  | .check _ _ _ => true
  | .applyA a _ => wfAction a

/-! ## Candle cache (`app/data/yfinance_provider.py`) -/

/-- Drop all but the last occurrence of each timestamp, preserving order
(pandas `combined[~combined.index.duplicated(keep='last')]`). -/
def dedupKeepLast : List Candle → List Candle
  | [] => []
  | c :: rest =>
      if rest.any (fun d => d.ts == c.ts) then dedupKeepLast rest
      else c :: dedupKeepLast rest

/-- Sort ascending by timestamp (pandas `sort_index()`; after
de-duplication the keys are unique, so any sort gives the same list). -/
def sortByTs (l : List Candle) : List Candle :=
  List.insertionSort (fun a b => a.ts ≤ b.ts) l

/-- The merge on a cache hit: concatenate cached and new rows,
de-duplicate keeping the newest arrival, sort ascending. -/
def mergeCandles (cached new : List Candle) : List Candle :=
  sortByTs (dedupKeepLast (cached ++ new))

/-- One `get_candles` call for a fixed `(symbol, interval)` key, with the
vendor response passed in as `fetched`.  On a cache hit an empty fetch
leaves the entry unchanged; on a miss an empty fetch raises (the entry
stays absent), otherwise the fetched frame is stored as-is. -/
def getCandlesStep (entry : Option (List Candle)) (fetched : List Candle) :
    Option (List Candle) :=
  match entry with
  | some cached => if fetched = [] then some cached else some (mergeCandles cached fetched)
  | none => if fetched = [] then none else some fetched

/-- The cache entry after a sequence of `get_candles` calls whose vendor
responses are `fetches`. -/
def runGetCandles (entry : Option (List Candle)) (fetches : List (List Candle)) :
    Option (List Candle) :=
  fetches.foldl getCandlesStep entry

/-- Strictly increasing timestamps. -/
def StrictIncr (l : List Candle) : Prop :=
  List.Pairwise (fun a b => a.ts < b.ts) l

/-! ## General list lemmas used below -/

lemma getLastD_mem {α : Type} (l : List α) (d : α) (hl : l ≠ []) :
    (l.getLast?).getD d ∈ l := by
  induction l with
  | nil => exact absurd rfl hl
  | cons a t ih =>
    cases t with
    | nil => exact List.mem_singleton.mpr rfl
    | cons b t2 =>
      rw [List.getLast?_cons_cons]
      exact List.mem_cons.mpr (Or.inr (ih (List.cons_ne_nil b t2)))

lemma getLast?_drop_eq {α : Type} (l : List α) (k : ℕ) (h : k < l.length) :
    (l.drop k).getLast? = l.getLast? := by
  induction l generalizing k with
  | nil => simp at h
  | cons a t ih =>
    cases k with
    | zero => rfl
    | succ k2 =>
      have hk : k2 < t.length := by simpa using h
      have ht : t ≠ [] := by
        cases t with
        | nil => simp at hk
        | cons b t2 => exact List.cons_ne_nil b t2
      rw [List.drop_succ_cons, ih k2 hk]
      cases t with
      | nil => exact absurd rfl ht
      | cons b t2 => rw [List.getLast?_cons_cons]

lemma headD_mem {α : Type} (l : List α) (d : α) (hl : l ≠ []) :
    l.headD d ∈ l := by
  cases l with
  | nil => exact absurd rfl hl
  | cons a t => exact List.mem_cons.mpr (Or.inl rfl)

lemma trueRangesFrom_length (p : Candle) (l : List Candle) :
    (trueRangesFrom p l).length = l.length := by
  induction l generalizing p with
  | nil => rfl
  | cons c cs ih => simp [trueRangesFrom, ih]

lemma emaFrom_length (a p : ℚ) (l : List ℚ) :
    (emaFrom a p l).length = l.length := by
  induction l generalizing p with
  | nil => rfl
  | cons x xs ih => simp [emaFrom, ih]

/-! ## C6: `detect_bos` always returns the empty list -/

/-- The latest candle lies inside `df.tail(lookback)`, so `detect_bos`
can never fire. -/
lemma detect_bos_empty (df : List Candle) (lookback : ℕ)
    (hlb : 1 ≤ lookback) : detect_bos df lookback = [] := by
  unfold detect_bos
  by_cases hlen : df.length < lookback + 5
  · simp [hlen]
  · have hge : lookback + 5 ≤ df.length := le_of_not_lt hlen
    simp only [hlen, if_false]
    have hdroplt : df.length - lookback < df.length := by omega
    have hne : df.drop (df.length - lookback) ≠ [] := by
      have : (df.drop (df.length - lookback)).length = lookback := by
        rw [List.length_drop]; omega
      intro hcon
      rw [hcon] at this
      simp at this
      omega
    have hmem : (df.getLast?).getD dummyCandle ∈ df.drop (df.length - lookback) := by
      have h1 := getLastD_mem (df.drop (df.length - lookback)) dummyCandle hne
      rwa [getLast?_drop_eq df (df.length - lookback) hdroplt] at h1
    have hhigh : ((df.getLast?).getD dummyCandle).high ≤
        listMaxD ((df.drop (df.length - lookback)).map (·.high)) 0 :=
      mem_le_listMaxD _ 0 _ (List.mem_map_of_mem (·.high) hmem)
    have hlow : listMinD ((df.drop (df.length - lookback)).map (·.low)) 0 ≤
        ((df.getLast?).getD dummyCandle).low :=
      listMinD_le_mem _ 0 _ (List.mem_map_of_mem (·.low) hmem)
    rw [if_neg (not_lt.mpr hhigh), if_neg (not_lt.mpr hlow)]
    rfl

/-- C6 — For every candle series and every positive lookback,
`detect_bos` returns the empty list: the recent high/low window
`df.tail(lookback)` contains the latest candle itself, so the latest
candle's high can never strictly exceed the window's max nor its low
strictly undercut the window's min.  In particular BOS events never
contribute to `_check_structure_confirmation` (which calls it with
lookback 20). -/
theorem C6_detect_bos_always_empty (df : List Candle) (lookback : ℕ)
    (hlb : 1 ≤ lookback) : detect_bos df lookback = [] :=
  detect_bos_empty df lookback hlb

/-- C6 witness: on a concrete 25-candle series (long enough to reach the
comparison logic) with lookback 20, `detect_bos` returns `[]`. -/
theorem C6_witness :
    detect_bos ((List.range 25).map (fun i => ⟨(i : Int), 1, 2, 1, 3 / 2, 0⟩)) 20 = [] :=
  C6_detect_bos_always_empty _ 20 (by decide)

/-! ## C7: `detect_liquidity_sweep` always returns the empty list -/

/-- C7 — For every candle series and every lookback of at least 3,
`detect_liquidity_sweep` returns the empty list: the recent low/high is
taken over `df.tail(lookback)`, which contains the last 3 candles, so the
third-from-last candle's low (high) can never be strictly below (above)
it.  In particular M15 sweeps never contribute to
`_check_structure_confirmation` (which calls it with lookback 20). -/
theorem C7_detect_liquidity_sweep_always_empty (df : List Candle)
    (lookback : ℕ) (hlb : 3 ≤ lookback) :
    detect_liquidity_sweep df lookback = [] := by
  unfold detect_liquidity_sweep
  by_cases hlen : df.length < lookback + 3
  · simp [hlen]
  · have hge : lookback + 3 ≤ df.length := le_of_not_lt hlen
    simp only [hlen, if_false]
    have hne3 : df.drop (df.length - 3) ≠ [] := by
      have : (df.drop (df.length - 3)).length = 3 := by
        rw [List.length_drop]; omega
      intro hcon
      rw [hcon] at this
      simp at this
    have hmem3 : (df.drop (df.length - 3)).headD dummyCandle ∈ df.drop (df.length - 3) :=
      headD_mem _ dummyCandle hne3
    have hsub : df.drop (df.length - 3) =
        (df.drop (df.length - lookback)).drop ((df.length - 3) - (df.length - lookback)) := by
      rw [List.drop_drop]
      congr 1
      omega
    have hmem : (df.drop (df.length - 3)).headD dummyCandle ∈
        df.drop (df.length - lookback) := by
      refine List.drop_subset ((df.length - 3) - (df.length - lookback))
        (df.drop (df.length - lookback)) ?_
      rw [← hsub]
      exact hmem3
    have hlow : listMinD ((df.drop (df.length - lookback)).map (·.low)) 0 ≤
        ((df.drop (df.length - 3)).headD dummyCandle).low :=
      listMinD_le_mem _ 0 _ (List.mem_map_of_mem (·.low) hmem)
    have hhigh : ((df.drop (df.length - 3)).headD dummyCandle).high ≤
        listMaxD ((df.drop (df.length - lookback)).map (·.high)) 0 :=
      mem_le_listMaxD _ 0 _ (List.mem_map_of_mem (·.high) hmem)
    rw [if_neg (fun hc => absurd hc.1 (not_lt.mpr hlow)),
      if_neg (fun hc => absurd hc.1 (not_lt.mpr hhigh))]
    rfl

/-- C7 witness: on a concrete 23-candle series (long enough to reach the
sweep-pattern logic) with lookback 20, `detect_liquidity_sweep`
returns `[]`. -/
theorem C7_witness :
    detect_liquidity_sweep
      ((List.range 23).map (fun i => ⟨(i : Int), 1, 2, 1, 3 / 2, 0⟩)) 20 = [] :=
  C7_detect_liquidity_sweep_always_empty _ 20 (by decide)

/-! ## C8: indicators are total and return empty results on short input -/

/-- C8 — Indicator boundary behaviour: with fewer than 3 candles
`detect_fvgs` returns no FVGs; with fewer than 5 candles
`detect_order_blocks` returns no order blocks; with fewer than `2w+1`
candles `identify_swing_points` returns empty lists; and `calculate_atr`
is a total function returning a series of the same length as its input
(so the empty series maps to the empty series and no input raises). -/
theorem C8_indicators_short_input (df : List Candle) (lookback window period : ℕ)
    (threshold : ℚ) :
    (df.length < 3 → detect_fvgs df lookback = []) ∧
    (df.length < 5 → detect_order_blocks df lookback threshold = []) ∧
    (df.length < window * 2 + 1 → identify_swing_points df window = ([], [])) ∧
    (calculate_atr df period).length = df.length := by
  refine ⟨fun h => ?_, fun h => ?_, fun h => ?_, ?_⟩
  · simp [detect_fvgs, h]
  · simp [detect_order_blocks, h]
  · simp [identify_swing_points, h]
  · cases df with
    | nil => rfl
    | cons c cs =>
      simp [calculate_atr, trueRanges, emaFrom_length, trueRangesFrom_length]

/-- C8 witness: the boundary facts evaluated on a concrete one-candle
series (and the ATR length fact also on the empty series). -/
theorem C8_witness :
    detect_fvgs [dummyCandle] 20 = [] ∧
    detect_order_blocks [dummyCandle] 20 (2 / 100) = [] ∧
    identify_swing_points [dummyCandle] 5 = ([], []) ∧
    (calculate_atr [dummyCandle] 14).length = 1 := by
  have h := C8_indicators_short_input [dummyCandle] 20 5 14 (2 / 100)
  exact ⟨h.1 (by decide), h.2.1 (by decide), h.2.2.1 (by decide), h.2.2.2⟩

/-! ## C3: SL takes precedence over TP inside one candle -/

/-- C3 — If an observed candle's range contains both thresholds of an
open trade (buy: `candle_low ≤ sl` and `candle_high ≥ tp`; mirrored for
sell), then both `H4FvgStrategy.evaluate_open_trade` and
`TradeStateMachine.check_and_update_trade` return a `close_by_sl` action
(in particular never `close_by_tp`): the SL crossing is checked first. -/
theorem C3_sl_precedence_over_tp :
    (∀ ctx : TradeContext,
      ((ctx.direction = "buy" ∧ ctx.candle_low ≤ ctx.current_sl ∧
          ctx.current_tp ≤ ctx.candle_high) ∨
        (ctx.direction = "sell" ∧ ctx.current_sl ≤ ctx.candle_high ∧
          ctx.candle_low ≤ ctx.current_tp)) →
      (evaluate_open_trade ctx).map (·.action_type) = some "close_by_sl") ∧
    (∀ (closed : List ℕ) (trade : Trade) (p hi lo : ℚ),
      trade.state = TradeState.Open →
      ((trade.direction = "buy" ∧ lo ≤ trade.stop_loss ∧ trade.take_profit ≤ hi) ∨
        (trade.direction = "sell" ∧ trade.stop_loss ≤ hi ∧ lo ≤ trade.take_profit)) →
      ((check_and_update_trade closed trade p hi lo).2).map (·.action_type) =
        some "close_by_sl") := by
  constructor
  · intro ctx hcross
    unfold evaluate_open_trade
    rcases hcross with ⟨hdir, hsl, _⟩ | ⟨hdir, hsl, _⟩
    · rw [if_pos ⟨hdir, hsl⟩]
      rfl
    · rw [if_neg (fun hc => by rw [hdir] at hc; exact absurd hc.1 (by decide)),
        if_pos ⟨hdir, hsl⟩]
      rfl
  · intro closed trade p hi lo hopen hcross
    unfold check_and_update_trade
    rw [if_neg (fun hne => hne hopen)]
    rcases hcross with ⟨hdir, hsl, _⟩ | ⟨hdir, hsl, _⟩
    · simp only [hdir, if_pos, if_true]
      rw [if_pos hsl]
      rfl
    · rw [hdir]
      rw [if_neg (by decide), if_pos hsl]
      rfl

/-- An empty multi-timeframe context used by concrete trade contexts. -/
def mtfFlat : MultiTimeframeContext :=
  ⟨"US30", "^DJI", 0, [⟨0, 100, 100, 100, 100, 0⟩], [⟨0, 100, 100, 100, 100, 0⟩],
    [], [], [], [], 100⟩

/-- C3 witness: a concrete open buy trade with `sl = 99`, `tp = 110` and a
candle spanning `[98, 111]` yields `close_by_sl` through both entry
points. -/
theorem C3_witness :
    (evaluate_open_trade
        ⟨1, "US30", "^DJI", "buy", 100, 100, 99, 110, 111, 98, mtfFlat⟩).map
      (·.action_type) = some "close_by_sl" ∧
    ((check_and_update_trade [] ⟨1, 1, "US30", "^DJI", "buy", 100, 100, 99, 110,
        TradeState.Open, 0, none, none, none⟩ 100 111 98).2).map (·.action_type) =
      some "close_by_sl" :=
  ⟨C3_sl_precedence_over_tp.1 _ (Or.inl ⟨rfl, by norm_num, by norm_num⟩),
    C3_sl_precedence_over_tp.2 [] _ 100 111 98 rfl (Or.inl ⟨rfl, by norm_num, by norm_num⟩)⟩

/-! ## C4: the 7-day time-stop through `evaluate_open_trade` -/

lemma profit_in_r_le_one (a : OpenTradeAnalytics)
    (hle : |a.current_price - a.entry_price| ≤ |a.entry_price - a.current_sl|) :
    profit_in_r_of a ≤ 1 := by
  unfold profit_in_r_of sl_distance_of
  split
  case isTrue hpos => exact (div_le_one hpos).mpr hle
  case isFalse => exact zero_le_one

lemma breakeven_adjustment_eq_none (a : OpenTradeAnalytics)
    (h : profit_in_r_of a ≤ 1) : breakeven_adjustment a = none := by
  unfold breakeven_adjustment
  rw [if_neg (not_lt.mpr h)]

lemma trail_adjustment_eq_none (a : OpenTradeAnalytics)
    (h : profit_in_r_of a ≤ 1) : trail_adjustment a = none := by
  unfold trail_adjustment
  rw [if_neg (fun hc => absurd (le_trans h one_le_two) (not_le.mpr hc))]

/-- `evaluate_adjustment` returns nothing when the profit is at most 1R
and the supplied open duration is within 7 days. -/
lemma evaluate_adjustment_eq_none (a : OpenTradeAnalytics)
    (hle : |a.current_price - a.entry_price| ≤ |a.entry_price - a.current_sl|)
    (hdur : a.open_duration ≤ 604800) : evaluate_adjustment a = none := by
  have h1 := profit_in_r_le_one a hle
  unfold evaluate_adjustment
  rw [breakeven_adjustment_eq_none a h1, trail_adjustment_eq_none a h1,
    if_neg (not_lt.mpr hdur)]

/-- `evaluate_adjustment` emits the time-stop adjustment when the profit
is at most 1R and the supplied open duration exceeds 7 days. -/
lemma evaluate_adjustment_time_stop (a : OpenTradeAnalytics)
    (hle : |a.current_price - a.entry_price| ≤ |a.entry_price - a.current_sl|)
    (hdur : (604800 : Int) < a.open_duration) :
    evaluate_adjustment a = some ⟨"close_early", none, none, "Trade open > 7 days"⟩ := by
  have h1 := profit_in_r_le_one a hle
  unfold evaluate_adjustment
  rw [breakeven_adjustment_eq_none a h1, trail_adjustment_eq_none a h1,
    if_pos hdur]

/-- `evaluate_open_trade` returns no action when no SL/TP crossing is
observed and the profit is at most 1R. -/
lemma evaluate_open_trade_eq_none (ctx : TradeContext)
    (hbuy : ctx.direction = "buy" →
      ¬ ctx.candle_low ≤ ctx.current_sl ∧ ¬ ctx.current_tp ≤ ctx.candle_high)
    (hsell : ctx.direction = "sell" →
      ¬ ctx.current_sl ≤ ctx.candle_high ∧ ¬ ctx.candle_low ≤ ctx.current_tp)
    (hle : |ctx.current_price - ctx.entry_price| ≤ |ctx.entry_price - ctx.current_sl|) :
    evaluate_open_trade ctx = none := by
  unfold evaluate_open_trade
  rw [if_neg (fun hc => (hbuy hc.1).1 hc.2), if_neg (fun hc => (hsell hc.1).1 hc.2),
    if_neg (fun hc => (hbuy hc.1).2 hc.2), if_neg (fun hc => (hsell hc.1).2 hc.2),
    evaluate_adjustment_eq_none (open_trade_analytics_of ctx) hle
      (by norm_num [open_trade_analytics_of])]

/-- C4 counterexample — the claim is false as stated: the outcome of
`evaluate_open_trade` is fully determined by its `TradeContext`, which
carries no trade age, and the source passes a fixed
`open_duration = timedelta(hours=1)` to the estimator.  This concrete
context is consistent with a buy trade that has been open for more than 7
days, has no SL or TP crossing on the observed candle (sl 95 < low 96,
high 105 < tp 110) and no breakeven/trail applicable (price at entry),
yet the call returns no action instead of a `close_manual` with reason
"Trade open > 7 days". -/
theorem C4_counterexample :
    evaluate_open_trade ⟨1, "US30", "^DJI", "buy", 100, 100, 95, 110, 105, 96, mtfFlat⟩ =
      none :=
  evaluate_open_trade_eq_none _ (fun _ => by norm_num) (fun hc => by simp at hc)
    (by norm_num)

lemma breakeven_adjustment_action (a : OpenTradeAnalytics) (x : SlTpAdjustment)
    (h : breakeven_adjustment a = some x) : x.action = "move_sl" := by
  unfold breakeven_adjustment at h
  split at h
  case isTrue =>
    split at h
    case isTrue =>
      cases h
      rfl
    case isFalse =>
      split at h
      case isTrue =>
        cases h
        rfl
      case isFalse => exact Option.noConfusion h
  case isFalse => exact Option.noConfusion h

lemma trail_adjustment_action (a : OpenTradeAnalytics) (x : SlTpAdjustment)
    (h : trail_adjustment a = some x) : x.action = "move_sl" := by
  unfold trail_adjustment at h
  split at h
  case isTrue =>
    split at h
    case isTrue =>
      split at h
      case isTrue =>
        cases h
        rfl
      case isFalse => exact Option.noConfusion h
    case isFalse =>
      split at h
      case isTrue =>
        cases h
        rfl
      case isFalse => exact Option.noConfusion h
  case isFalse => exact Option.noConfusion h

/-- `evaluate_adjustment` yields the time-stop exactly when neither the
breakeven branch nor the trailing branch yields an adjustment and the
supplied open duration exceeds 7 days: the fall-through order is
breakeven, trail, time-stop, and both earlier branches only ever emit
`move_sl` adjustments, never `close_early`. -/
lemma evaluate_adjustment_close_early_iff (a : OpenTradeAnalytics) :
    evaluate_adjustment a = some ⟨"close_early", none, none, "Trade open > 7 days"⟩ ↔
      breakeven_adjustment a = none ∧ trail_adjustment a = none ∧
        (604800 : Int) < a.open_duration := by
  constructor
  · intro h
    cases hb : breakeven_adjustment a with
    | some x =>
      have hx : evaluate_adjustment a = some x := by
        unfold evaluate_adjustment
        rw [hb]
      rw [hx] at h
      have haction := breakeven_adjustment_action a x hb
      rw [Option.some.inj h] at haction
      exact absurd haction (by decide)
    | none =>
      cases ht : trail_adjustment a with
      | some x =>
        have hx : evaluate_adjustment a = some x := by
          unfold evaluate_adjustment
          rw [hb, ht]
        rw [hx] at h
        have haction := trail_adjustment_action a x ht
        rw [Option.some.inj h] at haction
        exact absurd haction (by decide)
      | none =>
        have hx : evaluate_adjustment a =
            (if (604800 : Int) < a.open_duration then
              some ⟨"close_early", none, none, "Trade open > 7 days"⟩ else none) := by
          unfold evaluate_adjustment
          rw [hb, ht]
        rw [hx] at h
        by_cases hd : (604800 : Int) < a.open_duration
        · exact ⟨rfl, rfl, hd⟩
        · rw [if_neg hd] at h
          exact Option.noConfusion h
  · rintro ⟨hb, ht, hd⟩
    unfold evaluate_adjustment
    rw [hb, ht, if_pos hd]

/-- `evaluate_open_trade` returns no action when no SL/TP crossing is
observed and neither the breakeven nor the trailing branch applies: the
only remaining branch is the time-stop, which never fires on the
hard-coded one-hour duration. -/
lemma evaluate_open_trade_none_of_no_adjustment (ctx : TradeContext)
    (hbuy : ctx.direction = "buy" →
      ¬ ctx.candle_low ≤ ctx.current_sl ∧ ¬ ctx.current_tp ≤ ctx.candle_high)
    (hsell : ctx.direction = "sell" →
      ¬ ctx.current_sl ≤ ctx.candle_high ∧ ¬ ctx.candle_low ≤ ctx.current_tp)
    (hbe : breakeven_adjustment (open_trade_analytics_of ctx) = none)
    (htr : trail_adjustment (open_trade_analytics_of ctx) = none) :
    evaluate_open_trade ctx = none := by
  have hadj : evaluate_adjustment (open_trade_analytics_of ctx) = none := by
    unfold evaluate_adjustment
    rw [hbe, htr, if_neg (show ¬ (604800 : Int) <
      (open_trade_analytics_of ctx).open_duration from by norm_num [open_trade_analytics_of])]
  unfold evaluate_open_trade
  rw [if_neg (fun hc => (hbuy hc.1).1 hc.2), if_neg (fun hc => (hsell hc.1).1 hc.2),
    if_neg (fun hc => (hbuy hc.1).2 hc.2), if_neg (fun hc => (hsell hc.1).2 hc.2),
    hadj]

/-- C4 amended — `evaluate_open_trade` hands the estimator a constant
one-hour `open_duration`, so the 7-day time-stop can never fire through
it: for every context with no SL/TP crossing on the observed candle and
on which neither the breakeven nor the trailing branch yields an
adjustment, it returns no action, regardless of the trade's true age.
The `close_manual`-with-reason-"Trade open > 7 days" behaviour lives in
`evaluate_adjustment` alone, which returns exactly that adjustment
precisely when neither the breakeven nor the trailing branch yields an
adjustment and its `open_duration` argument exceeds 7 days. -/
theorem C4_time_stop_amended :
    (∀ ctx : TradeContext,
      (ctx.direction = "buy" →
        ¬ ctx.candle_low ≤ ctx.current_sl ∧ ¬ ctx.current_tp ≤ ctx.candle_high) →
      (ctx.direction = "sell" →
        ¬ ctx.current_sl ≤ ctx.candle_high ∧ ¬ ctx.candle_low ≤ ctx.current_tp) →
      breakeven_adjustment (open_trade_analytics_of ctx) = none →
      trail_adjustment (open_trade_analytics_of ctx) = none →
      evaluate_open_trade ctx = none) ∧
    (∀ a : OpenTradeAnalytics,
      evaluate_adjustment a = some ⟨"close_early", none, none, "Trade open > 7 days"⟩ ↔
        breakeven_adjustment a = none ∧ trail_adjustment a = none ∧
          (604800 : Int) < a.open_duration) :=
  ⟨fun ctx hbuy hsell hbe htr =>
      evaluate_open_trade_none_of_no_adjustment ctx hbuy hsell hbe htr,
    fun a => evaluate_adjustment_close_early_iff a⟩

/-- C4 witness: the amended theorem applied to a concrete quiet context
(no crossings, flat profit, so neither branch adjusts) and to concrete
analytics of a trade open for 8 days (691200 seconds), which produce no
action and the time-stop adjustment respectively. -/
theorem C4_witness :
    evaluate_open_trade ⟨2, "GER40", "^GDAXI", "buy", 200, 200, 190, 220, 210, 195,
      mtfFlat⟩ = none ∧
    evaluate_adjustment ⟨2, "GER40", "buy", 200, 200, 190, 220, 691200, 0,
      [⟨0, 100, 100, 100, 100, 0⟩], [⟨0, 100, 100, 100, 100, 0⟩]⟩ =
      some ⟨"close_early", none, none, "Trade open > 7 days"⟩ :=
  ⟨C4_time_stop_amended.1 _ (fun _ => by norm_num) (fun hc => by simp at hc)
      (breakeven_adjustment_eq_none _
        (profit_in_r_le_one _ (by norm_num [open_trade_analytics_of])))
      (trail_adjustment_eq_none _
        (profit_in_r_le_one _ (by norm_num [open_trade_analytics_of]))),
    (C4_time_stop_amended.2 _).mpr
      ⟨breakeven_adjustment_eq_none _ (profit_in_r_le_one _ (by norm_num)),
        trail_adjustment_eq_none _ (profit_in_r_le_one _ (by norm_num)),
        by norm_num⟩⟩

/-! ## C1: SL/TP placement invariants for new signals -/

lemma nearest_low_lt_entry (ctx : SignalContext) (hpos : 0 < ctx.entry_price) :
    nearest_low_of ctx < ctx.entry_price := by
  have hfb : ctx.entry_price * (98 / 100) < ctx.entry_price := by
    nlinarith
  unfold nearest_low_of
  split
  case isFalse => exact hfb
  case isTrue hne =>
    rcases List.eq_nil_or_concat
      (ctx.recent_swing_lows.filter (fun s => decide (s < ctx.entry_price))) with hf | hf
    · rw [hf]
      exact hfb
    · have hfne : ctx.recent_swing_lows.filter
          (fun s => decide (s < ctx.entry_price)) ≠ [] := by
        rcases hf with ⟨l2, a, ha⟩
        rw [ha]
        simp
      have hmem := listMinD_mem _ (ctx.entry_price * (98 / 100)) hfne
      have := List.mem_filter.mp hmem
      exact of_decide_eq_true this.2

lemma entry_lt_nearest_high (ctx : SignalContext) (hpos : 0 < ctx.entry_price) :
    ctx.entry_price < nearest_high_of ctx := by
  have hfb : ctx.entry_price < ctx.entry_price * (102 / 100) := by
    nlinarith
  unfold nearest_high_of
  split
  case isFalse => exact hfb
  case isTrue hne =>
    rcases List.eq_nil_or_concat
      (ctx.recent_swing_highs.filter (fun s => decide (ctx.entry_price < s))) with hf | hf
    · rw [hf]
      exact hfb
    · have hfne : ctx.recent_swing_highs.filter
          (fun s => decide (ctx.entry_price < s)) ≠ [] := by
        rcases hf with ⟨l2, a, ha⟩
        rw [ha]
        simp
      have hmem := listMaxD_mem _ (ctx.entry_price * (102 / 100)) hfne
      have := List.mem_filter.mp hmem
      exact of_decide_eq_true this.2

lemma entry_lt_buy_tp (stats : MaeMfeStats) (ctx : SignalContext)
    (hatr : 0 < avg_atr_of ctx)
    (hmfe : ∀ m, stats.median_mfe = some m → 0 ≤ m) :
    ctx.entry_price < buy_tp_of stats ctx := by
  unfold buy_tp_of
  cases hs : stats.median_mfe with
  | none => nlinarith
  | some m =>
    have hm := hmfe m hs
    show ctx.entry_price <
      if m ≠ 0 then ctx.entry_price + m else ctx.entry_price + avg_atr_of ctx * (5 / 2)
    by_cases hz : m = 0
    · rw [if_neg (fun hc => hc hz)]
      nlinarith
    · rw [if_pos hz]
      have : 0 < m := lt_of_le_of_ne hm (fun hc => hz hc.symm)
      linarith

lemma sell_tp_lt_entry (stats : MaeMfeStats) (ctx : SignalContext)
    (hatr : 0 < avg_atr_of ctx)
    (hmfe : ∀ m, stats.median_mfe = some m → 0 ≤ m) :
    sell_tp_of stats ctx < ctx.entry_price := by
  unfold sell_tp_of
  cases hs : stats.median_mfe with
  | none => nlinarith
  | some m =>
    have hm := hmfe m hs
    show (if m ≠ 0 then ctx.entry_price - m else ctx.entry_price - avg_atr_of ctx * (5 / 2)) <
      ctx.entry_price
    by_cases hz : m = 0
    · rw [if_neg (fun hc => hc hz)]
      nlinarith
    · rw [if_pos hz]
      have : 0 < m := lt_of_le_of_ne hm (fun hc => hz hc.symm)
      linarith

/-- A flat one-candle series: its true range, and hence its ATR, is 0. -/
def flatCandle : Candle := ⟨0, 100, 100, 100, 100, 0⟩

/-- The signal context of the C1 counterexample: a buy at entry 100 over
flat H4/H1 series (ATR 0) with no swing points. -/
def c1FlatCtx : SignalContext :=
  ⟨"US30", "^DJI", "buy", 100, [flatCandle], [flatCandle], [], []⟩

/-- The MAE/MFE statistics of an empty trade history. -/
def emptyStats : MaeMfeStats := ⟨none, none, none, none, 0⟩

lemma atrLast_flat : atrLast [flatCandle] = 0 := by
  norm_num [atrLast, calculate_atr, trueRanges, trueRangesFrom, emaFrom, flatCandle]

/-- C1 counterexample — the claim is false as stated: on a context with
non-empty but flat H4 and H1 series (so the averaged ATR is 0) and no
trade history (so no median MFE), the buy-side TP equals the entry price
(`tp = entry + avg_atr * 2.5 = entry`), violating `entry < tp`. -/
theorem C1_counterexample :
    ¬ ((estimate_for_new_signal emptyStats c1FlatCtx).1 < c1FlatCtx.entry_price ∧
      c1FlatCtx.entry_price < (estimate_for_new_signal emptyStats c1FlatCtx).2) := by
  have havg : avg_atr_of c1FlatCtx = 0 := by
    unfold avg_atr_of c1FlatCtx
    norm_num [atrLast_flat]
  have htp : (estimate_for_new_signal emptyStats c1FlatCtx).2 = c1FlatCtx.entry_price := by
    unfold estimate_for_new_signal
    rw [if_pos (show c1FlatCtx.direction = "buy" from rfl)]
    show buy_tp_of emptyStats c1FlatCtx = c1FlatCtx.entry_price
    unfold buy_tp_of emptyStats
    rw [havg]
    norm_num
  intro h
  rw [htp] at h
  exact lt_irrefl _ h.2

/-- C1 amended — the placement invariants hold for every context with
non-empty H4 and H1 series provided additionally that the entry price is
positive, the averaged ATR is positive (e.g. some candle has a positive
range), and the median-MFE statistic, when present, is non-negative
(which is true of every `get_mae_mfe_stats` output, whose MFE samples are
non-negative by construction): for a buy `sl < entry < tp`, for a sell
`tp < entry < sl`.  With a zero ATR and no usable MFE statistic the TP
degenerates to the entry itself (see the counterexample). -/
theorem C1_sl_tp_invariants_amended (stats : MaeMfeStats) (ctx : SignalContext)
    (hh4 : ctx.h4_df ≠ []) (hh1 : ctx.h1_df ≠ [])
    (hentry : 0 < ctx.entry_price) (hatr : 0 < avg_atr_of ctx)
    (hmfe : ∀ m, stats.median_mfe = some m → 0 ≤ m) :
    (ctx.direction = "buy" →
      (estimate_for_new_signal stats ctx).1 < ctx.entry_price ∧
        ctx.entry_price < (estimate_for_new_signal stats ctx).2) ∧
    (ctx.direction = "sell" →
      (estimate_for_new_signal stats ctx).2 < ctx.entry_price ∧
        ctx.entry_price < (estimate_for_new_signal stats ctx).1) := by
  constructor
  · intro hdir
    unfold estimate_for_new_signal
    rw [if_pos hdir]
    constructor
    · have := nearest_low_lt_entry ctx hentry
      show nearest_low_of ctx - avg_atr_of ctx * (3 / 2) < ctx.entry_price
      nlinarith
    · exact entry_lt_buy_tp stats ctx hatr hmfe
  · intro hdir
    unfold estimate_for_new_signal
    rw [if_neg (fun hc => by rw [hdir] at hc; exact absurd hc (by decide))]
    constructor
    · exact sell_tp_lt_entry stats ctx hatr hmfe
    · have := entry_lt_nearest_high ctx hentry
      show ctx.entry_price < nearest_high_of ctx + avg_atr_of ctx * (3 / 2)
      nlinarith

/-- A one-candle series with range 2: its ATR is 2. -/
def rangeCandle : Candle := ⟨0, 100, 101, 99, 100, 0⟩

/-- The signal context of the C1 witness: a buy at entry 100 with one
swing low at 97 and ATR 2 on both timeframes. -/
def c1WitnessCtx : SignalContext :=
  ⟨"US30", "^DJI", "buy", 100, [rangeCandle], [rangeCandle], [], [97]⟩

/-- The MAE/MFE statistics used by the C1 witness (median MFE 5). -/
def c1WitnessStats : MaeMfeStats := ⟨none, some 5, none, none, 3⟩

/-- C1 witness: the amended theorem applied to a concrete buy context
(entry 100, swing low 97, ATR 2, median MFE 5). -/
theorem C1_witness :
    (estimate_for_new_signal c1WitnessStats c1WitnessCtx).1 < c1WitnessCtx.entry_price ∧
      c1WitnessCtx.entry_price < (estimate_for_new_signal c1WitnessStats c1WitnessCtx).2 :=
  (C1_sl_tp_invariants_amended c1WitnessStats c1WitnessCtx (by decide) (by decide)
    (by norm_num [c1WitnessCtx])
    (by norm_num [avg_atr_of, c1WitnessCtx, atrLast, calculate_atr, trueRanges,
      trueRangesFrom, emaFrom, rangeCandle])
    (by intro m hm; simp only [c1WitnessStats] at hm; injection hm with h2; rw [← h2]; norm_num)).1 rfl

/-! ## C2: no TP notification after leaving Open -/

lemma mem_insertClosed_self (id : ℕ) (closed : List ℕ) :
    id ∈ insertClosed id closed := by
  unfold insertClosed
  split
  case isTrue h => exact h
  case isFalse => exact List.mem_cons.mpr (Or.inl rfl)

lemma mem_insertClosed_of_mem (x id : ℕ) (closed : List ℕ) (hx : x ∈ closed) :
    x ∈ insertClosed id closed := by
  unfold insertClosed
  split
  case isTrue => exact hx
  case isFalse => exact List.mem_cons.mpr (Or.inr hx)

lemma update_trade_state_id (t : Trade) (st : TradeState) (ct : Int)
    (cp : Option ℚ) (cr : Option String) :
    (update_trade_state t st ct cp cr).id = t.id := by
  unfold update_trade_state
  cases cp <;> cases cr <;> simp <;> split <;> rfl

lemma update_trade_state_state (t : Trade) (st : TradeState) (ct : Int)
    (cp : Option ℚ) (cr : Option String) :
    (update_trade_state t st ct cp cr).state = st := by
  unfold update_trade_state
  cases cp <;> cases cr <;> simp <;> split <;> rfl

lemma update_trade_sl_tp_id (t : Trade) (nsl ntp : Option ℚ) :
    (update_trade_sl_tp t nsl ntp).id = t.id := by
  unfold update_trade_sl_tp
  cases nsl <;> cases ntp <;> rfl

lemma update_trade_sl_tp_state (t : Trade) (nsl ntp : Option ℚ) :
    (update_trade_sl_tp t nsl ntp).state = t.state := by
  unfold update_trade_sl_tp
  cases nsl <;> cases ntp <;> rfl

/-- The invariant maintained by the state machine: a tracked trade that is
not Open is recorded in the `_closed_trades` set.  It holds for a freshly
created machine over an Open trade, and the spec's startup reload
establishes it for non-Open trades. -/
def smInv (s : SmState) : Prop :=
  s.trade.state ≠ TradeState.Open → s.trade.id ∈ s.closed

lemma runSmStep_inv (s : SmState) (st : SmStep) (hw : wfStep st = true)
    (hinv : smInv s) : smInv (runSmStep s st) := by
  cases st with
  | check p h l =>
    by_cases hst : s.trade.state ≠ TradeState.Open
    · intro _
      show s.trade.id ∈ (check_and_update_trade s.closed s.trade p h l).1
      unfold check_and_update_trade
      rw [if_pos hst]
      exact mem_insertClosed_self _ _
    · intro hne
      exact absurd hne hst
  | applyA a now =>
    show smInv ⟨(apply_action s.closed s.trade a now).1, (apply_action s.closed s.trade a now).2⟩
    unfold apply_action
    split
    case isTrue =>
      cases hns : a.new_state with
      | none =>
        simp only [hns]
        exact fun hne => hinv hne
      | some ns =>
        simp only [hns]
        cases hp : parseStateName (stateNameXform ns) with
        | none =>
          simp only [hp]
          exact fun hne => hinv hne
        | some st2 =>
          simp only [hp]
          intro _
          show (update_trade_state s.trade st2 now a.close_price a.close_reason).id ∈
            insertClosed s.trade.id s.closed
          rw [update_trade_state_id]
          exact mem_insertClosed_self _ _
    case isFalse =>
      split
      case isTrue =>
        intro hne
        show (update_trade_sl_tp s.trade a.new_sl a.new_tp).id ∈ s.closed
        rw [update_trade_sl_tp_id]
        apply hinv
        rw [update_trade_sl_tp_state] at hne
        exact hne
      case isFalse => exact fun hne => hinv hne

lemma runSmStep_absorb (s : SmState) (st : SmStep) (hw : wfStep st = true)
    (hne : s.trade.state ≠ TradeState.Open) :
    (runSmStep s st).trade.state ≠ TradeState.Open := by
  cases st with
  | check p h l => exact hne
  | applyA a now =>
    show (apply_action s.closed s.trade a now).2.state ≠ TradeState.Open
    unfold apply_action
    split
    case isTrue =>
      cases hns : a.new_state with
      | none => exact hne
      | some ns =>
        simp only [hns]
        cases hp : parseStateName (stateNameXform ns) with
        | none =>
          simp only [hp]
          exact hne
        | some st2 =>
          simp only [hp]
          show (update_trade_state s.trade st2 now a.close_price a.close_reason).state ≠
            TradeState.Open
          rw [update_trade_state_state]
          have hwa : wfAction a = true := hw
          unfold wfAction at hwa
          simp only [hns] at hwa
          intro hc
          rw [hc] at hp
          rw [hp] at hwa
          exact absurd hwa (by decide)
    case isFalse =>
      split
      case isTrue =>
        show (update_trade_sl_tp s.trade a.new_sl a.new_tp).state ≠ TradeState.Open
        rw [update_trade_sl_tp_state]
        exact hne
      case isFalse => exact hne

lemma runSm_inv (s : SmState) (steps : List SmStep)
    (hw : ∀ st ∈ steps, wfStep st = true) (hinv : smInv s) :
    smInv (runSm s steps) := by
  induction steps generalizing s with
  | nil => exact hinv
  | cons st rest ih =>
    exact ih (runSmStep s st)
      (fun x hx => hw x (List.mem_cons.mpr (Or.inr hx)))
      (runSmStep_inv s st (hw st (List.mem_cons.mpr (Or.inl rfl))) hinv)

lemma runSm_absorb (s : SmState) (steps : List SmStep)
    (hw : ∀ st ∈ steps, wfStep st = true)
    (hne : s.trade.state ≠ TradeState.Open) :
    (runSm s steps).trade.state ≠ TradeState.Open := by
  induction steps generalizing s with
  | nil => exact hne
  | cons st rest ih =>
    exact ih (runSmStep s st)
      (fun x hx => hw x (List.mem_cons.mpr (Or.inr hx)))
      (runSmStep_absorb s st (hw st (List.mem_cons.mpr (Or.inl rfl))) hne)

lemma closed_state_no_action (s : SmState) (hinv : smInv s)
    (hne : s.trade.state ≠ TradeState.Open) (ns : String) (p hi lo : ℚ) :
    should_send_tp_notification s.closed s.trade.id ns = false ∧
      (check_and_update_trade s.closed s.trade p hi lo).2 = none := by
  constructor
  · unfold should_send_tp_notification
    have hc : s.closed.contains s.trade.id = true := List.elem_eq_true_of_mem (hinv hne)
    rw [hc]
    simp
  · unfold check_and_update_trade
    rw [if_pos hne]

/-- C2 — Once the tracked trade has left the Open state, every later
interaction with the state machine is inert for it: for every initial
state satisfying the closed-set invariant (which holds both for a fresh
machine over an Open trade and after the spec's startup reload), every
well-formed step sequence `steps` after which the trade is non-Open, and
every further well-formed step sequence `steps2`,
`should_send_tp_notification` answers `false` for the trade's id
(whatever `new_state` argument is passed, so in particular for
`"ClosedByTp"`), and `check_and_update_trade` returns no action — even if
the observed candle crosses the old TP.  A TP notification is therefore
possible only on the single Open → ClosedByTp transition. -/
theorem C2_no_tp_notification_after_close (s0 : SmState)
    (steps steps2 : List SmStep) (p hi lo : ℚ) (ns : String)
    (hinv : smInv s0)
    (hw1 : ∀ st ∈ steps, wfStep st = true)
    (hw2 : ∀ st ∈ steps2, wfStep st = true)
    (hclosed : (runSm s0 steps).trade.state ≠ TradeState.Open) :
    should_send_tp_notification (runSm (runSm s0 steps) steps2).closed
        (runSm (runSm s0 steps) steps2).trade.id ns = false ∧
      (check_and_update_trade (runSm (runSm s0 steps) steps2).closed
        (runSm (runSm s0 steps) steps2).trade p hi lo).2 = none :=
  closed_state_no_action (runSm (runSm s0 steps) steps2)
    (runSm_inv _ steps2 hw2 (runSm_inv _ steps hw1 hinv))
    (runSm_absorb _ steps2 hw2 hclosed) ns p hi lo

/-- The open buy trade tracked in the C2 witness. -/
def c2Trade : Trade :=
  ⟨1, 1, "US30", "^DJI", "buy", 100, 100, 99, 110, TradeState.Open, 0, none, none, none⟩

/-- The close-manual action applied in the C2 witness. -/
def c2CloseAction : TradeUpdateAction :=
  ⟨"close_manual", some "ClosedManual", none, none, some "Trade open > 7 days", some 100⟩

/-- C2 witness: a fresh machine over an Open buy trade; a `close_manual`
transition is applied; a later check observes a candle crossing the old
TP (high 121 ≥ 110) yet the machine emits no action and
`should_send_tp_notification` with `"ClosedByTp"` answers `false`. -/
theorem C2_witness :
    should_send_tp_notification
        (runSm (runSm ⟨[], c2Trade⟩ [SmStep.applyA c2CloseAction 1000])
          [SmStep.check 120 121 119]).closed
        (runSm (runSm ⟨[], c2Trade⟩ [SmStep.applyA c2CloseAction 1000])
          [SmStep.check 120 121 119]).trade.id "ClosedByTp" = false ∧
      (check_and_update_trade
        (runSm (runSm ⟨[], c2Trade⟩ [SmStep.applyA c2CloseAction 1000])
          [SmStep.check 120 121 119]).closed
        (runSm (runSm ⟨[], c2Trade⟩ [SmStep.applyA c2CloseAction 1000])
          [SmStep.check 120 121 119]).trade 120 121 119).2 = none :=
  C2_no_tp_notification_after_close ⟨[], c2Trade⟩ [SmStep.applyA c2CloseAction 1000]
    [SmStep.check 120 121 119] 120 121 119 "ClosedByTp"
    (by intro h; exact absurd rfl h)
    (by decide) (by decide) (by decide)

/-! ## C9: cache entries keep strictly increasing timestamps -/

instance (l : List Candle) : Decidable (StrictIncr l) := by
  unfold StrictIncr
  infer_instance

instance : IsTotal Candle (fun a b => a.ts ≤ b.ts) :=
  ⟨fun a b => Int.le_total a.ts b.ts⟩

instance : IsTrans Candle (fun a b => a.ts ≤ b.ts) :=
  ⟨fun _ _ _ h1 h2 => le_trans h1 h2⟩

lemma dedupKeepLast_subset (l : List Candle) (x : Candle)
    (hx : x ∈ dedupKeepLast l) : x ∈ l := by
  induction l with
  | nil => cases hx
  | cons c rest ih =>
    unfold dedupKeepLast at hx
    split at hx
    case isTrue => exact List.mem_cons.mpr (Or.inr (ih hx))
    case isFalse =>
      rcases List.mem_cons.mp hx with h | h
      · exact List.mem_cons.mpr (Or.inl h)
      · exact List.mem_cons.mpr (Or.inr (ih h))

lemma dedupKeepLast_ts_nodup (l : List Candle) :
    ((dedupKeepLast l).map (·.ts)).Nodup := by
  induction l with
  | nil => exact List.nodup_nil
  | cons c rest ih =>
    unfold dedupKeepLast
    split
    case isTrue => exact ih
    case isFalse hany =>
      rw [List.map_cons]
      refine List.nodup_cons.mpr ⟨?_, ih⟩
      intro hmem
      rcases List.mem_map.mp hmem with ⟨d, hd, hts⟩
      have hdrest := dedupKeepLast_subset rest d hd
      exact hany (List.any_eq_true.mpr ⟨d, hdrest, by simp [hts]⟩)

lemma mergeCandles_strictIncr (cached new : List Candle) :
    StrictIncr (mergeCandles cached new) := by
  unfold mergeCandles StrictIncr sortByTs
  have hsorted : List.Sorted (fun a b => a.ts ≤ b.ts)
      (List.insertionSort (fun a b => a.ts ≤ b.ts) (dedupKeepLast (cached ++ new))) :=
    List.sorted_insertionSort _ _
  have hperm : List.Perm (List.insertionSort (fun a b => a.ts ≤ b.ts)
      (dedupKeepLast (cached ++ new))) (dedupKeepLast (cached ++ new)) :=
    List.perm_insertionSort _ _
  have hnodup : ((List.insertionSort (fun a b => a.ts ≤ b.ts)
      (dedupKeepLast (cached ++ new))).map (·.ts)).Nodup :=
    ((hperm.map (·.ts)).nodup_iff).mpr (dedupKeepLast_ts_nodup (cached ++ new))
  have hne : List.Pairwise (fun a b : Candle => a.ts ≠ b.ts)
      (List.insertionSort (fun a b => a.ts ≤ b.ts) (dedupKeepLast (cached ++ new))) :=
    (List.pairwise_map).mp hnodup
  exact (hsorted.and hne).imp (fun hab => lt_of_le_of_ne hab.1 hab.2)

lemma getCandlesStep_strictIncr (entry : Option (List Candle))
    (fetched : List Candle)
    (h0 : ∀ e, entry = some e → StrictIncr e) (hf : StrictIncr fetched) :
    ∀ e2, getCandlesStep entry fetched = some e2 → StrictIncr e2 := by
  intro e2 he2
  cases entry with
  | some cached =>
    rw [show getCandlesStep (some cached) fetched =
      (if fetched = [] then some cached else some (mergeCandles cached fetched)) from rfl] at he2
    by_cases hemp : fetched = []
    · rw [if_pos hemp] at he2
      obtain rfl : cached = e2 := Option.some.inj he2
      exact h0 _ rfl
    · rw [if_neg hemp] at he2
      obtain rfl : mergeCandles cached fetched = e2 := Option.some.inj he2
      exact mergeCandles_strictIncr _ _
  | none =>
    rw [show getCandlesStep none fetched =
      (if fetched = [] then none else some fetched) from rfl] at he2
    by_cases hemp : fetched = []
    · rw [if_pos hemp] at he2
      cases he2
    · rw [if_neg hemp] at he2
      obtain rfl : fetched = e2 := Option.some.inj he2
      exact hf

lemma runGetCandles_strictIncr (fetches : List (List Candle))
    (entry : Option (List Candle))
    (h0 : ∀ e, entry = some e → StrictIncr e)
    (hf : ∀ f ∈ fetches, StrictIncr f) :
    ∀ e, runGetCandles entry fetches = some e → StrictIncr e := by
  induction fetches generalizing entry with
  | nil => exact h0
  | cons f rest ih =>
    exact ih (getCandlesStep entry f)
      (getCandlesStep_strictIncr entry f h0
        (hf f (List.mem_cons.mpr (Or.inl rfl))))
      (fun x hx => hf x (List.mem_cons.mpr (Or.inr hx)))

/-- C9 — For every sequence of `get_candles` calls on a fixed
`(symbol, interval)` key, with each vendor response a proper candle
series (strictly increasing timestamps, the `CandleSeries`/vendor
contract of the spec), the cache entry — when present — has strictly
increasing timestamps: the merge concatenates cached and new rows, drops
all but the last occurrence of each timestamp (newest arrival wins,
pandas `keep='last'`) and sorts ascending, so its result is strictly
increasing from any inputs, and a first fetch stores a proper series
unchanged. -/
theorem C9_cache_strictly_increasing (fetches : List (List Candle))
    (hf : ∀ f ∈ fetches, StrictIncr f) :
    ∀ e, runGetCandles none fetches = some e → StrictIncr e :=
  runGetCandles_strictIncr fetches none (fun e he => by cases he) hf

/-- C9 witness: two calls; the first fetch returns candles at timestamps
1 and 2, the second returns an updated candle at timestamp 2 (newest
arrival wins) plus a new one at 3; the resulting entry is strictly
increasing. -/
theorem C9_witness :
    StrictIncr [⟨1, 1, 1, 1, 1, 0⟩, ⟨2, 2, 2, 2, 2, 0⟩, ⟨3, 1, 1, 1, 1, 0⟩] :=
  C9_cache_strictly_increasing
    [[⟨1, 1, 1, 1, 1, 0⟩, ⟨2, 1, 1, 1, 1, 0⟩],
      [⟨2, 2, 2, 2, 2, 0⟩, ⟨3, 1, 1, 1, 1, 0⟩]]
    (by decide) [⟨1, 1, 1, 1, 1, 0⟩, ⟨2, 2, 2, 2, 2, 0⟩, ⟨3, 1, 1, 1, 1, 0⟩]
    (by decide)

/-! ## C10: the MAE/MFE aggregate -/

lemma maeMfe_foldl (direction : String) (l : List Trade) (acc : List ℚ × List ℚ) :
    l.foldl (maeMfeStep direction) acc =
      (acc.1 ++ ((pnlsSpec l direction).filter (fun x => decide (x < 0))).map (fun x => |x|),
        acc.2 ++ (pnlsSpec l direction).filter (fun x => !(decide (x < 0)))) := by
  induction l generalizing acc with
  | nil => simp [pnlsSpec]
  | cons t rest ih =>
    rw [List.foldl_cons, ih]
    unfold maeMfeStep pnlsSpec
    rw [List.filterMap_cons]
    cases hcp : t.close_price with
    | none => rfl
    | some cp =>
      by_cases hok : cp ≠ 0 ∧ t.actual_entry_price ≠ 0
      · by_cases hneg : (if direction = "buy" then cp - t.actual_entry_price
            else t.actual_entry_price - cp) < 0
        · simp [hok, hneg, List.filter_cons, List.append_assoc]
        · simp [hok, hneg, List.filter_cons, List.append_assoc]
      · simp [hok]

/-- Claim-side reading, amended only where the counterexample forces it:
MFE takes the non-negative pnls (a zero pnl counts as favourable), MAE
the strictly negative ones in absolute value. -/
def mfesAmended (closed : List Trade) (direction : String) : List ℚ :=
  (pnlsSpec closed direction).filter (fun x => decide (0 ≤ x))

def maeMfeStatsAmended (closed : List Trade) (direction : String) : MaeMfeStats :=
  if closed = [] then ⟨none, none, none, none, 0⟩
  else
    ⟨if maesClaim closed direction ≠ [] then some (medianQ (maesClaim closed direction)) else none,
     if mfesAmended closed direction ≠ [] then some (medianQ (mfesAmended closed direction)) else none,
     if maesClaim closed direction ≠ [] then some (meanQ (maesClaim closed direction)) else none,
     if mfesAmended closed direction ≠ [] then some (meanQ (mfesAmended closed direction)) else none,
     closed.length⟩

lemma not_lt_filter_eq_nonneg_filter (l : List ℚ) :
    l.filter (fun x => !(decide (x < 0))) = l.filter (fun x => decide (0 ≤ x)) := by
  apply List.filter_congr
  intro x _
  by_cases h : x < 0
  · simp [h, not_le.mpr h]
  · simp [h, not_lt.mp h]

/-- The trade of the C10 counter-example: a closed buy whose close price
equals its entry price, so its pnl is exactly 0. -/
def c10Trade : Trade :=
  ⟨1, 1, "US30", "^DJI", "buy", 100, 100, 95, 110, TradeState.ClosedManual, 0,
    some 10, some 100, some "closed manually"⟩

/-- C10 counterexample — the claim is false as stated: the source
classifies a zero pnl into the MFE list (`if pnl < 0 ... else mfes`),
while the claim partitions into strict negatives and strict positives.
For a single closed buy trade with `close = entry = 100` the code returns
a present (zero) `median_mfe`, whereas the literal claim-side aggregate
has an empty MFE partition and hence no median. -/
theorem C10_counterexample :
    get_mae_mfe_stats [c10Trade] "buy" ≠ maeMfeStatsClaim [c10Trade] "buy" := by
  have hp : pnlsSpec [c10Trade] "buy" = [(100 : ℚ) - 100] := by
    unfold pnlsSpec c10Trade
    rw [List.filterMap_cons]
    norm_num
  have hma : List.filter (fun x => decide (x < 0)) [(100 : ℚ) - 100] = [] := by
    norm_num [List.filter_cons, List.filter_nil]
  have hmf : List.filter (fun x => !(decide (x < 0))) [(100 : ℚ) - 100] =
      [(100 : ℚ) - 100] := by
    norm_num [List.filter_cons, List.filter_nil]
  have hmfC : List.filter (fun x => decide (0 < x)) [(100 : ℚ) - 100] = [] := by
    norm_num [List.filter_cons, List.filter_nil]
  have hcode : (get_mae_mfe_stats [c10Trade] "buy").median_mfe =
      some (medianQ [(100 : ℚ) - 100]) := by
    unfold get_mae_mfe_stats
    rw [if_neg (by decide), maeMfe_foldl, hp, hma, hmf]
    show (if ([] : List ℚ) ++ [(100 : ℚ) - 100] ≠ [] then
        some (medianQ (([] : List ℚ) ++ [(100 : ℚ) - 100])) else none) =
      some (medianQ [(100 : ℚ) - 100])
    rw [List.nil_append, if_pos (List.cons_ne_nil _ _)]
  have hclaim : (maeMfeStatsClaim [c10Trade] "buy").median_mfe = none := by
    unfold maeMfeStatsClaim mfesClaim
    rw [if_neg (by decide), hp, hmfC]
    show (if ([] : List ℚ) ≠ [] then some (medianQ ([] : List ℚ)) else none) = none
    rw [if_neg (fun hc => hc rfl)]
  intro h
  rw [h, hclaim] at hcode
  exact Option.noConfusion hcode

/-- C10 amended — `get_mae_mfe_stats` over the closed trades returned by
the query computes, for the trades with truthy (present, non-zero) close
and entry prices, `pnl = close - entry` for a buy and `entry - close` for
a sell, puts the strictly negative pnls (in absolute value) into MAE and
the non-negative ones (zero included) into MFE, and returns the median and
mean of each partition together with the number of closed trades
considered; and the query underlying it returns at most 100 trades. -/
theorem C10_mae_mfe_amended :
    (∀ (closed : List Trade) (direction : String), closed ≠ [] →
      get_mae_mfe_stats closed direction = maeMfeStatsAmended closed direction) ∧
    (∀ (trades : List Trade) (symbol_alias direction : String),
      (get_closed_trades trades symbol_alias direction 100).length ≤ 100) := by
  constructor
  · intro closed direction hne
    unfold get_mae_mfe_stats maeMfeStatsAmended
    rw [if_neg hne, if_neg hne, maeMfe_foldl, not_lt_filter_eq_nonneg_filter]
    rfl
  · intro trades symbol_alias direction
    unfold get_closed_trades
    rw [if_pos (by norm_num)]
    exact List.length_take_le _ _

/-- A closed buy trade with a pnl of +5 used by the C10 witness. -/
def c10WinTrade : Trade :=
  ⟨2, 2, "US30", "^DJI", "buy", 100, 100, 95, 110, TradeState.ClosedByTp, 0,
    some 20, some 105, some "Take profit hit"⟩

/-- C10 witness: the amended characterization evaluated on a concrete
one-trade history, and the 100-row bound on a concrete query. -/
theorem C10_witness :
    get_mae_mfe_stats [c10WinTrade] "buy" = maeMfeStatsAmended [c10WinTrade] "buy" ∧
      (get_closed_trades [c10WinTrade] "US30" "buy" 100).length ≤ 100 :=
  ⟨C10_mae_mfe_amended.1 [c10WinTrade] "buy" (by decide),
    C10_mae_mfe_amended.2 [c10WinTrade] "US30" "buy"⟩

/-! ## C5: idempotence of `evaluate_new_signal` on a fixed context -/

lemma lookupTs_insertTs_self (m : List (String × Int)) (k : String) (v : Int) :
    lookupTs (insertTs m k v) k = some v := by
  unfold lookupTs insertTs
  rw [List.find?_cons_of_pos _ (by simp)]
  rfl

/-- Every branch of `evaluate_new_signal` returns the updated
`last_h4_timestamp` dictionary of the H4-close gate. -/
lemma evaluate_new_signal_fst (state : List (String × Int)) (stats : MaeMfeStats)
    (ctx : MultiTimeframeContext) :
    (evaluate_new_signal state stats ctx).1 = (has_h4_candle_closed state ctx).1 := by
  unfold evaluate_new_signal
  repeat' split
  all_goals rfl

/-- After any call, the gate's dictionary holds the current last H4
timestamp, so an immediately repeated call fails the gate. -/
lemma gate_second_false (state : List (String × Int))
    (ctx : MultiTimeframeContext) (hne : ctx.h4 ≠ []) :
    (has_h4_candle_closed (has_h4_candle_closed state ctx).1 ctx).2 = false := by
  unfold has_h4_candle_closed
  rw [if_neg hne, if_neg hne]
  show (match lookupTs (insertTs state ctx.alias_ _) ctx.alias_ with
    | none => true
    | some l => decide (l < ((ctx.h4.getLast?).getD dummyCandle).ts)) = false
  rw [lookupTs_insertTs_self]
  simp

/-- A failing H4-close gate short-circuits `evaluate_new_signal`. -/
lemma evaluate_new_signal_gate_false (state : List (String × Int))
    (stats : MaeMfeStats) (ctx : MultiTimeframeContext)
    (h : (has_h4_candle_closed state ctx).2 = false) :
    (evaluate_new_signal state stats ctx).2 = none := by
  unfold evaluate_new_signal
  rw [h]
  rfl

/-- The second of two successive calls on the same context always
returns no signal. -/
lemma evaluate_new_signal_second_none (state : List (String × Int))
    (stats stats2 : MaeMfeStats) (ctx : MultiTimeframeContext) :
    (evaluate_new_signal (evaluate_new_signal state stats ctx).1 stats2 ctx).2 = none := by
  apply evaluate_new_signal_gate_false
  by_cases hne : ctx.h4 = []
  · unfold has_h4_candle_closed
    rw [if_pos hne]
  · rw [evaluate_new_signal_fst]
    exact gate_second_false state ctx hne

/-- C5 — amended: `evaluate_new_signal` mutates the per-symbol
`last_h4_timestamp` dictionary on every call with a non-empty H4 series,
so calling it twice in succession on the same context always returns no
signal the second time (the H4-close gate observes an unchanged
timestamp): at most one signal per H4 close per symbol per process.  The
two verdicts therefore agree exactly when the first call returns none —
the claim's "same verdict both times" fails whenever the first call
emits a signal (see the counterexample). -/
theorem C5_second_call_returns_none (state : List (String × Int))
    (stats stats2 : MaeMfeStats) (ctx : MultiTimeframeContext) :
    (evaluate_new_signal (evaluate_new_signal state stats ctx).1 stats2 ctx).2 = none :=
  evaluate_new_signal_second_none state stats stats2 ctx

/-- H4 candles of the C5 counterexample: a bullish FVG (first candle's
high 10 is below the third candle's low 12). -/
def c5H4 : List Candle :=
  [⟨1, 9, 10, 8, 19 / 2, 0⟩, ⟨2, 10, 11, 9, 21 / 2, 0⟩, ⟨3, 25 / 2, 13, 12, 25 / 2, 0⟩]

/-- A down candle (body 2 → 1) for the C5 H1 series. -/
def downC : Candle := ⟨0, 2, 2, 1, 1, 0⟩

/-- An up candle (body 1 → 2) for the C5 H1 series. -/
def upC : Candle := ⟨0, 1, 2, 1, 2, 0⟩

/-- H1 candles of the C5 counterexample: 30 candles whose last 20 hold 15
down bodies then 5 up bodies — a bullish CHOCH. -/
def c5H1 : List Candle :=
  List.replicate 10 upC ++ List.replicate 15 downC ++ List.replicate 5 upC

/-- An M5 candle with a bullish wick rejection: body 1 (100 → 101), lower
wick 4. -/
def wickC : Candle := ⟨0, 100, 102, 96, 101, 0⟩

/-- The multi-timeframe context of the C5 counterexample. -/
def c5Ctx : MultiTimeframeContext :=
  ⟨"US30", "^DJI", 0, c5H4, c5H1, [], [], List.replicate 3 wickC, [], 100⟩

lemma c5_fvgs : detect_fvgs c5H4 20 = [⟨0, 2, 12, 10, "bullish", 2⟩] := by decide

lemma c5_obs : detect_order_blocks c5H4 20 (2 / 100) = [] := by decide

lemma c5_bias : determine_bias [⟨0, 2, 12, 10, "bullish", 2⟩] [] = some "buy" := by
  decide

lemma c5_choch : detect_choch c5H1 20 = [⟨"bullish_choch", 0⟩] := by
  have hlen : c5H1.length = 30 := by decide
  have hups : chochUps c5H1 20 = 5 := by decide
  have hdowns : chochDowns c5H1 20 = 15 := by decide
  have hups5 : chochUps c5H1 5 = 5 := by decide
  have hdowns5 : chochDowns c5H1 5 = 0 := by decide
  have hts : ((c5H1.getLast?).getD dummyCandle).ts = 0 := by decide
  unfold detect_choch
  rw [hlen, if_neg (by norm_num), hups, hdowns, hups5, hdowns5,
    if_neg (by norm_num), if_pos (by norm_num), hts]
  rfl

lemma c5_structure : check_structure_confirmation c5Ctx "buy" = true := by
  unfold check_structure_confirmation
  rw [if_pos rfl,
    show c5Ctx.h1 = c5H1 from rfl, show c5Ctx.m15 = [] from rfl,
    detect_bos_empty c5H1 20 (by norm_num), c5_choch]
  decide

lemma c5_entry : check_entry_confirmation c5Ctx "buy" = true := by
  have hwick : wick_rejection "buy" wickC = true := by
    unfold wick_rejection wickC
    norm_num
  have hany : (c5Ctx.m5.drop (c5Ctx.m5.length - 3)).any (wick_rejection "buy") = true := by
    rw [show c5Ctx.m5.drop (c5Ctx.m5.length - 3) = [wickC, wickC, wickC] from by decide,
      List.any_cons, hwick]
    rfl
  unfold check_entry_confirmation
  rw [if_neg (by decide), hany]
  rfl

/-- C5 counterexample — the claim is false as stated: on this concrete
context (bullish H4 FVG, bullish H1 CHOCH, M5 wick rejection) a fresh
strategy emits a signal on the first call, while the second call on the
very same context returns none because the H4-close gate no longer sees
an advancing timestamp.  The two successive verdicts differ. -/
theorem C5_counterexample :
    (evaluate_new_signal [] emptyStats c5Ctx).2 ≠
      (evaluate_new_signal (evaluate_new_signal [] emptyStats c5Ctx).1 emptyStats c5Ctx).2 := by
  have h2 := evaluate_new_signal_second_none [] emptyStats emptyStats c5Ctx
  have h1 : (evaluate_new_signal [] emptyStats c5Ctx).2 =
      some (generate_signal emptyStats c5Ctx "buy") := by
    unfold evaluate_new_signal
    rw [show has_h4_candle_closed [] c5Ctx = (insertTs [] "US30" 3, true) from by decide]
    rw [show c5Ctx.h4 = c5H4 from rfl, c5_fvgs, c5_obs]
    rw [if_neg (by simp), if_neg (by simp)]
    rw [show determine_bias [⟨0, 2, 12, 10, "bullish", 2⟩] [] = some "buy" from c5_bias]
    show (if (!check_structure_confirmation c5Ctx "buy") = true then
        ((insertTs [] "US30" 3, true).1, none)
      else if (!check_entry_confirmation c5Ctx "buy") = true then
        ((insertTs [] "US30" 3, true).1, none)
      else ((insertTs [] "US30" 3, true).1,
        some (generate_signal emptyStats c5Ctx "buy"))).2 =
      some (generate_signal emptyStats c5Ctx "buy")
    rw [c5_structure, c5_entry]
    rfl
  rw [h1, h2]
  exact fun hc => Option.noConfusion hc

end TradingSignal
